import Mathlib

/-!
Verification of the csv-to-xml conversion engine.

This file gives a shallow embedding, in Lean 4, of the data-cleaning,
validation, section-building and XML-fixing code of the repository
(`data_cleaning.py`, `data_validation.py`, `csv_to_xml.py`,
`src/converters/counseling_converter.py`, `classDataConverter.py`,
`fix-sba-xml.py`), and proves or refutes the stated properties of that code.

Embedding conventions:
* a Python string is a Lean `String`, manipulated through its `List Char`;
  ASCII versions of `str.lower`, `str.strip`, `str.split`, `\w` and `\d`
  are used (all inputs exercised by the claims are ASCII);
* a Python `float` is modelled exactly as the decimal value it was parsed
  from (`PyDec`, a mantissa/exponent pair), so arithmetic used by the code
  (comparisons against 0 and 100) is exact; `str()` of a float renders the
  normalized decimal, which agrees with CPython on the decimal literals the
  converters handle (binary rounding of doubles is not modelled);
* a raised Python exception is an `Except.error` carrying the exception
  text; code that cannot raise returns plain values;
* `xml.etree` elements are `Elem` trees built bottom-up; mutation-style
  `create_element(parent, ...)` becomes accumulation of child lists, and a
  builder that raises mid-way returns the children it had already attached
  together with the error.
-/

set_option linter.unusedVariables false

namespace PyStr

/-- ASCII decimal digit test (regex `\d`, `str.isdigit` on the inputs used). -/
def isAsciiDigit (c : Char) : Bool := 48 ≤ c.toNat && c.toNat ≤ 57

/-- Numeric value of an ASCII digit character. -/
def digVal (c : Char) : Nat := c.toNat - 48

/-- Python whitespace characters (`str.strip`, `str.split()` with no argument). -/
def isPySpace (c : Char) : Bool :=
  c = ' ' || c = '\t' || c = '\n' || c = '\r' || c = '\x0b' || c = '\x0c'

/-- ASCII lower-casing of one character (`str.lower`). -/
def lowerChar (c : Char) : Char :=
  if 65 ≤ c.toNat && c.toNat ≤ 90 then Char.ofNat (c.toNat + 32) else c

/-- ASCII lower-casing of a character list. -/
def lowerL (l : List Char) : List Char := l.map lowerChar

/-- `str.strip()`: drop leading and trailing whitespace. -/
def stripL (l : List Char) : List Char :=
  ((l.dropWhile isPySpace).reverse.dropWhile isPySpace).reverse

/-- `str.split(sep)` for a one-character separator: split at every
occurrence, keeping empty segments (Python keeps them too). -/
def splitOnChar (sep : Char) : List Char → List (List Char)
  | [] => [[]]
  | c :: rest =>
    if c = sep then [] :: splitOnChar sep rest
    else
      match splitOnChar sep rest with
      | [] => [[c]]
      | h :: t => (c :: h) :: t

theorem dropWhile_len_le (p : Char → Bool) (l : List Char) :
    (l.dropWhile p).length ≤ l.length := by
  induction l with
  | nil => simp [List.dropWhile]
  | cons c rest ih =>
    simp only [List.dropWhile]
    split
    · exact Nat.le_trans ih (Nat.le_succ _)
    · exact Nat.le_refl _

/-- `str.split()` with no argument: split on whitespace runs, dropping
empty segments. Structural recursion on a fuel bounded below by the list
length (each step consumes at least one character), so the kernel can
evaluate it on concrete strings. -/
def splitWsF : Nat → List Char → List (List Char)
  | _, [] => []
  | 0, _ => []
  | fuel + 1, c :: rest =>
    if isPySpace c then splitWsF fuel rest
    else
      (c :: rest.takeWhile (fun d => !isPySpace d)) ::
        splitWsF fuel (rest.dropWhile (fun d => !isPySpace d))

def splitWs (l : List Char) : List (List Char) := splitWsF l.length l

/-- Join character-list segments with a one-character separator
(`sep.join(parts)`). -/
def joinChar (sep : Char) : List (List Char) → List Char
  | [] => []
  | [p] => p
  | p :: rest => p ++ sep :: joinChar sep rest

/-- Decimal value of a digit list (most significant first). -/
def digitsVal (ds : List Nat) : Nat := ds.foldl (fun a d => a * 10 + d) 0

/-- The ASCII character of one decimal digit. -/
def digCh (d : Nat) : Char := Char.ofNat (48 + d)

/-- Decimal digit list of a natural number (no padding); fuel-structured
so the kernel can evaluate it (`n + 1` steps always suffice). -/
def natDigitsF : Nat → Nat → List Char
  | 0, _ => []
  | fuel + 1, n => if n < 10 then [digCh n] else natDigitsF fuel (n / 10) ++ [digCh (n % 10)]

def natDigits (n : Nat) : List Char := natDigitsF (n + 1) n

/-- Two-digit zero-padded rendering (`%02d`, as in `%m`, `%d`, `%y`). -/
def pad2 (n : Nat) : List Char :=
  if n < 10 then ['0', Char.ofNat (48 + n)] else natDigits n

end PyStr

namespace PyFloatModel

open PyStr

/-- A finite Python float, kept as the exact decimal it was parsed from:
`value = mant * 10 ^ exp`. -/
structure PyDec where
  mant : Int
  exp : Int
deriving DecidableEq, Repr

/-- Rational value of a `PyDec`. -/
def PyDec.toQ (d : PyDec) : ℚ := (d.mant : ℚ) * (10 : ℚ) ^ d.exp

/-- Result of Python `float(str)`: a finite decimal, an infinity, or NaN. -/
inductive PyFloat where
  | finite (d : PyDec)
  | inf (neg : Bool)
  | nan
deriving DecidableEq, Repr

/-- A run of digits in which single underscores may stand between two
digits (Python numeric literal syntax accepted by `float`). Returns the
digit values read and the unread remainder; `none` when the run does not
start with a digit or an underscore is not followed by a digit. -/
def digitsU : List Char → Option (List Nat × List Char)
  | [] => none
  | c :: rest =>
    if isAsciiDigit c then
      match rest with
      | '_' :: rest2 =>
        match digitsU rest2 with
        | some (ds, r) => some (digVal c :: ds, r)
        | none => none
      | d :: rest2 =>
        if isAsciiDigit d then
          match digitsU (d :: rest2) with
          | some (ds, r) => some (digVal c :: ds, r)
          | none => none
        else some ([digVal c], rest)
      | [] => some ([digVal c], [])
    else none

/-- Parse the optional exponent part `([eE][+-]?digits)?` and require the
end of the input; returns the exponent value. -/
def parseExpEnd : List Char → Option Int
  | [] => some 0
  | c :: rest =>
    if c = 'e' || c = 'E' then
      let (eneg, rest2) :=
        match rest with
        | '-' :: r => (true, r)
        | '+' :: r => (false, r)
        | r => (false, r)
      match digitsU rest2 with
      | some (ds, []) =>
        some (if eneg then -(digitsVal ds : Int) else (digitsVal ds : Int))
      | _ => none
    else none

/-- Parse the mantissa-and-exponent body of a float literal (after sign):
`digits [. digits] [exp]` or `. digits [exp]`, requiring end of input. -/
def parseBody (l : List Char) : Option PyDec :=
  let (ints, rest) :=
    match digitsU l with
    | some (ds, r) => (ds, r)
    | none => (([] : List Nat), l)
  let (fracs, rest2) :=
    match rest with
    | '.' :: r =>
      match digitsU r with
      | some (ds, r2) => (ds, r2)
      | none => (([] : List Nat), r)
    | r => (([] : List Nat), r)
  if ints.isEmpty && fracs.isEmpty then none
  else
    match parseExpEnd rest2 with
    | some e =>
      some ⟨(digitsVal (ints ++ fracs) : Int), e - (fracs.length : Int)⟩
    | none => none

/-- Python `float(s)` on a string: strip whitespace, optional sign, then
`inf`/`infinity`/`nan` (case-insensitive) or a decimal literal.
`none` models the `ValueError` raise. -/
def pyParseFloatL (l : List Char) : Option PyFloat :=
  let l := stripL l
  let (neg, body) :=
    match l with
    | '-' :: r => (true, r)
    | '+' :: r => (false, r)
    | r => (false, r)
  let low := lowerL body
  if low = ['i', 'n', 'f'] || low = ['i', 'n', 'f', 'i', 'n', 'i', 't', 'y'] then
    some (.inf neg)
  else if low = ['n', 'a', 'n'] then some .nan
  else
    match parseBody body with
    | some d => some (.finite (if neg then ⟨-d.mant, d.exp⟩ else d))
    | none => none

def pyParseFloat (s : String) : Option PyFloat := pyParseFloatL s.data

/-- Normalize a `PyDec`: strip factors of ten from the mantissa into the
exponent while the value still has fractional digits. -/
def normDecF : Nat → PyDec → PyDec
  | 0, d => d
  | fuel + 1, d =>
    if d.mant = 0 then ⟨0, 0⟩
    else if d.exp < 0 && d.mant % 10 = 0 then normDecF fuel ⟨d.mant / 10, d.exp + 1⟩
    else d

def normDec (d : PyDec) : PyDec := normDecF ((-d.exp).toNat + 1) d

/-- `str()` of a finite float, for the decimal magnitudes the converters
handle (CPython would switch to scientific notation only for extreme
exponents, which no input here reaches). Integral values render with a
trailing `.0`, as in Python. -/
def renderDec (d : PyDec) : String :=
  let d := normDec d
  let sign := if d.mant < 0 then "-" else ""
  let digits := natDigits d.mant.natAbs
  if 0 ≤ d.exp then
    sign ++ ⟨digits⟩ ++ ⟨List.replicate d.exp.toNat '0'⟩ ++ ".0"
  else
    let k := (-d.exp).toNat
    let padded :=
      if digits.length ≤ k then List.replicate (k + 1 - digits.length) '0' ++ digits
      else digits
    sign ++ ⟨padded.take (padded.length - k)⟩ ++ "." ++ ⟨padded.drop (padded.length - k)⟩

/-- Whether `float.is_integer()` holds for the value. -/
def PyDec.isInt (d : PyDec) : Bool := 0 ≤ (normDec d).exp

/-- `int()` of an integral float value. -/
def PyDec.toInt (d : PyDec) : Int :=
  (normDec d).mant * (10 : Int) ^ (normDec d).exp.toNat

/-- `value < n` for a finite float against an integer, computed on the
mantissa/exponent pair (kernel-evaluable; equal to `d.toQ < n`). -/
def PyDec.ltInt (d : PyDec) (n : Int) : Bool :=
  if 0 ≤ d.exp then d.mant * 10 ^ d.exp.toNat < n
  else d.mant < n * 10 ^ (-d.exp).toNat

/-- `n < value` for a finite float against an integer. -/
def PyDec.gtInt (d : PyDec) (n : Int) : Bool :=
  if 0 ≤ d.exp then n < d.mant * 10 ^ d.exp.toNat
  else n * 10 ^ (-d.exp).toNat < d.mant

/-- Truth value of `f <= 0` on a Python float (NaN compares false);
a finite decimal is `<= 0` exactly when its mantissa is. -/
def PyFloat.leZero : PyFloat → Bool
  | .finite d => d.mant ≤ 0
  | .inf neg => neg
  | .nan => false

end PyFloatModel

namespace PyStr

/-- Whether `hay` starts with `pat`. -/
def startsWithL : List Char → List Char → Bool
  | _, [] => true
  | [], _ :: _ => false
  | a :: hay, b :: pat => a = b && startsWithL hay pat

/-- Python substring containment (`pat in hay`, `re.search` of a literal). -/
def containsSub : List Char → List Char → Bool
  | [], pat => pat.isEmpty
  | a :: hay, pat => startsWithL (a :: hay) pat || containsSub hay pat

/-- ASCII upper-casing of one character (`str.upper`). -/
def upperChar (c : Char) : Char :=
  if 97 ≤ c.toNat && c.toNat ≤ 122 then Char.ofNat (c.toNat - 32) else c

/-- ASCII upper-casing of a character list. -/
def upperL (l : List Char) : List Char := l.map upperChar

/-- The guard `not value or str(value).strip() == "" or str(value).lower() == "nan"`
shared by every cleaner; `none` models Python `None` / pandas NaN. -/
def isBlankNan : Option String → Bool
  | none => true
  | some s => s.data.isEmpty || (stripL s.data).isEmpty || lowerL s.data = ['n', 'a', 'n']

/-- Index of the last occurrence of `c` (`str.rfind`), `-1` when absent. -/
def rfindI (c : Char) : List Char → Int
  | [] => -1
  | a :: rest =>
    let r := rfindI c rest
    if 0 ≤ r then r + 1
    else if a = c then 0 else -1

/-- Word character (regex `\w`, ASCII part). -/
def isWordChar (c : Char) : Bool :=
  isAsciiDigit c || (65 ≤ c.toNat && c.toNat ≤ 90) ||
    (97 ≤ c.toNat && c.toNat ≤ 122) || c = '_'

/-- Left-to-right removal of every `\[\w+\]:` occurrence
(`re.sub(r'\[\w+\]:', '', line)`). Fuel-structured as for `splitWs`. -/
def stripTagsF : Nat → List Char → List Char
  | _, [] => []
  | 0, l => l
  | fuel + 1, c :: rest =>
    if c = '[' then
      match rest.dropWhile isWordChar with
      | ']' :: ':' :: tail =>
        if (rest.takeWhile isWordChar).isEmpty then c :: stripTagsF fuel rest
        else stripTagsF fuel tail
      | _ => c :: stripTagsF fuel rest
    else c :: stripTagsF fuel rest

def stripTags (l : List Char) : List Char := stripTagsF l.length l

end PyStr

namespace PyDate

open PyStr

/-- A calendar date, as produced by `datetime.strptime`. -/
structure MyDate where
  year : Nat
  month : Nat
  day : Nat
deriving DecidableEq, Repr

/-- Gregorian leap-year rule (as in `datetime`). -/
def isLeap (y : Nat) : Bool := (y % 4 = 0 && y % 100 ≠ 0) || y % 400 = 0

def daysInMonth (y m : Nat) : Nat :=
  if m = 2 then (if isLeap y then 29 else 28)
  else if m = 4 ∨ m = 6 ∨ m = 9 ∨ m = 11 then 30
  else 31

/-- The constraints `datetime(year, month, day)` enforces. -/
def dateOk (d : MyDate) : Bool :=
  1 ≤ d.year && d.year ≤ 9999 && 1 ≤ d.month && d.month ≤ 12 &&
    1 ≤ d.day && d.day ≤ daysInMonth d.year d.month

/-- One `strptime` directive: `%Y`, `%y`, `%m` or `%d`. -/
inductive DField where
  | Y4 | Y2 | M | D
deriving DecidableEq, Repr

/-- The shape every date format in this repository has: three directives
joined by one separator character. -/
structure DateFmt where
  f1 : DField
  f2 : DField
  f3 : DField
  sep : Char
deriving DecidableEq, Repr

def allDigits (l : List Char) : Bool := l.all isAsciiDigit

def digitsValL (l : List Char) : Nat := digitsVal (l.map digVal)

/-- Full-string match of one directive against one digit run, following
CPython `_strptime` regexes: `%Y` is exactly four digits, `%y` exactly two
(mapped through the 1969..2068 pivot), `%m` is `1[0-2]|0[1-9]|[1-9]` and
`%d` is `3[01]|[12]\d|0[1-9]|[1-9]`. -/
def fieldVal (f : DField) (l : List Char) : Option Nat :=
  if !allDigits l then none
  else
    let v := digitsValL l
    match f with
    | .Y4 => if l.length = 4 then some v else none
    | .Y2 => if l.length = 2 then some (if v ≤ 68 then 2000 + v else 1900 + v) else none
    | .M => if (l.length = 1 || l.length = 2) && 1 ≤ v && v ≤ 12 then some v else none
    | .D => if (l.length = 1 || l.length = 2) && 1 ≤ v && v ≤ 31 then some v else none

def isYearField : DField → Bool
  | .Y4 => true
  | .Y2 => true
  | _ => false

def pickVal (want : DField → Bool) (ps : List (DField × Nat)) : Option Nat :=
  (ps.find? (fun p => want p.1)).map (·.2)

/-- The regex-match phase of `datetime.strptime(s, fmt)` for the
three-directive formats used here. The separator is not a digit and every
directive matches only digits, so the regex match is equivalent to
splitting at the separator and full-matching each part. -/
def pyStrptimeRaw (fmt : DateFmt) (l : List Char) : Option MyDate :=
  match splitOnChar fmt.sep l with
  | [a, b, c] =>
    match fieldVal fmt.f1 a, fieldVal fmt.f2 b, fieldVal fmt.f3 c with
    | some v1, some v2, some v3 =>
      let ps := [(fmt.f1, v1), (fmt.f2, v2), (fmt.f3, v3)]
      match pickVal isYearField ps, pickVal (· = .M) ps, pickVal (· = .D) ps with
      | some y, some m, some d => some ⟨y, m, d⟩
      | _, _, _ => none
    | _, _, _ => none
  | _ => none

/-- `datetime.strptime(s, fmt)`: the regex match followed by the
`datetime(...)` constructor validation (`dateOk`). `none` models the
`ValueError` raise. -/
def pyStrptimeL (fmt : DateFmt) (l : List Char) : Option MyDate :=
  match pyStrptimeRaw fmt l with
  | some dt => if dateOk dt then some dt else none
  | none => none

/-- `strftime` output of one directive (`%Y` unpadded as on glibc; the
round-trip theorems restrict to four-digit years where this matters). -/
def fieldOut (f : DField) (d : MyDate) : List Char :=
  match f with
  | .Y4 => natDigits d.year
  | .Y2 => pad2 (d.year % 100)
  | .M => pad2 d.month
  | .D => pad2 d.day

/-- `d.strftime(fmt)` for a three-directive format. -/
def strftimeL (fmt : DateFmt) (d : MyDate) : List Char :=
  fieldOut fmt.f1 d ++ fmt.sep :: (fieldOut fmt.f2 d ++ fmt.sep :: fieldOut fmt.f3 d)

/-- `d.strftime('%Y-%m-%d')`, the ISO form every converter emits. -/
def isoDate (d : MyDate) : String :=
  ⟨natDigits d.year ++ '-' :: (pad2 d.month ++ '-' :: pad2 d.day)⟩

def fmtYmdDash : DateFmt := ⟨.Y4, .M, .D, '-'⟩
def fmtMdYSlash : DateFmt := ⟨.M, .D, .Y4, '/'⟩
def fmtMdYDash : DateFmt := ⟨.M, .D, .Y4, '-'⟩
def fmtMdySlash : DateFmt := ⟨.M, .D, .Y2, '/'⟩
def fmtDmYDash : DateFmt := ⟨.D, .M, .Y4, '-'⟩
def fmtYmdSlash : DateFmt := ⟨.Y4, .M, .D, '/'⟩
def fmtY2mdSlash : DateFmt := ⟨.Y2, .M, .D, '/'⟩
def fmtMdyDash : DateFmt := ⟨.M, .D, .Y2, '-'⟩

/-- First format in the configured list that parses wins
(the `for fmt in input_formats: try ... except ValueError: continue` loop). -/
def firstParse (fmts : List DateFmt) (l : List Char) : Option MyDate :=
  match fmts with
  | [] => none
  | f :: rest =>
    match pyStrptimeL f l with
    | some d => some d
    | none => firstParse rest l

/-- Prefix match of `re.match(r'\d{4}-\d{1,2}-\d{1,2}', s)` (not anchored
at the end, as in the source). -/
def lenientYmd (l : List Char) : Bool :=
  match l with
  | a :: b :: c :: d :: '-' :: rest =>
    allDigits [a, b, c, d] &&
      (let run := rest.takeWhile isAsciiDigit
       (run.length = 1 || run.length = 2) &&
         match rest.dropWhile isAsciiDigit with
         | '-' :: rest2 => !(rest2.takeWhile isAsciiDigit).isEmpty
         | _ => false)
  | _ => false

end PyDate

namespace DataCleaning

open PyStr PyFloatModel PyDate

/-- `DEFAULT_STATE_MAPPINGS` from `data_cleaning.py` (insertion order kept). -/
def DEFAULT_STATE_MAPPINGS : List (String × String) :=
  [("AL", "Alabama"), ("AK", "Alaska"), ("AZ", "Arizona"), ("AR", "Arkansas"),
   ("CA", "California"), ("CO", "Colorado"), ("CT", "Connecticut"), ("DE", "Delaware"),
   ("FL", "Florida"), ("GA", "Georgia"), ("HI", "Hawaii"), ("ID", "Idaho"),
   ("IL", "Illinois"), ("IN", "Indiana"), ("IA", "Iowa"), ("KS", "Kansas"),
   ("KY", "Kentucky"), ("LA", "Louisiana"), ("ME", "Maine"), ("MD", "Maryland"),
   ("MA", "Massachusetts"), ("MI", "Michigan"), ("MN", "Minnesota"), ("MS", "Mississippi"),
   ("MO", "Missouri"), ("MT", "Montana"), ("NE", "Nebraska"), ("NV", "Nevada"),
   ("NH", "New Hampshire"), ("NJ", "New Jersey"), ("NM", "New Mexico"), ("NY", "New York"),
   ("NC", "North Carolina"), ("ND", "North Dakota"), ("OH", "Ohio"), ("OK", "Oklahoma"),
   ("OR", "Oregon"), ("PA", "Pennsylvania"), ("RI", "Rhode Island"), ("SC", "South Carolina"),
   ("SD", "South Dakota"), ("TN", "Tennessee"), ("TX", "Texas"), ("UT", "Utah"),
   ("VT", "Vermont"), ("VA", "Virginia"), ("WA", "Washington"), ("WV", "West Virginia"),
   ("WI", "Wisconsin"), ("WY", "Wyoming"), ("DC", "District of Columbia"),
   ("AS", "American Samoa"), ("GU", "Guam"), ("MP", "Northern Mariana Islands"),
   ("PR", "Puerto Rico"), ("VI", "U.S. Virgin Islands")]

/-- `DEFAULT_VALID_STATES`: the mapping values plus the seven extras. The
source keeps these in a Python set whose iteration order is unspecified;
only case-insensitive membership matters (the names are pairwise distinct
case-insensitively), so a fixed list is a faithful model. -/
def DEFAULT_VALID_STATES : List String :=
  DEFAULT_STATE_MAPPINGS.map (·.2) ++
    ["Armed Forces Europe", "Armed Forces Pacific", "Armed Forces the Americas",
     "Federated States of Micronesia", "Marshall Islands", "Republic of Palau",
     "United States Minor Outlying Islands"]

/-- `standardize_state_name` from `data_cleaning.py`. -/
def standardize_state_name (state_value : Option String)
    (valid_states_list : Option (List String) := none)
    (default_return : String := "") : String :=
  if isBlankNan state_value then default_return
  else
    let stateStr : List Char := stripL ((state_value.getD "").data)
    let standardized : List Char :=
      match DEFAULT_STATE_MAPPINGS.find? (fun p => p.1.data = upperL stateStr) with
      | some p => p.2.data
      | none =>
        match DEFAULT_STATE_MAPPINGS.find? (fun p => lowerL p.2.data = lowerL stateStr) with
        | some p => p.2.data
        | none =>
          let tempValid := valid_states_list.getD DEFAULT_VALID_STATES
          match tempValid.find? (fun v => lowerL v.data = lowerL stateStr) with
          | some v => v.data
          | none => stateStr
    if standardized.isEmpty then default_return
    else
      match valid_states_list with
      | none => ⟨standardized⟩
      | some vl =>
        if vl.any (fun v => v.data == standardized) then ⟨standardized⟩
        else
          match vl.find? (fun v => lowerL v.data = lowerL standardized) with
          | some v => v
          | none => default_return

/-- The `us_variants` list and `country_map` of `standardize_country_code`. -/
def US_VARIANTS : List String := ["US", "USA", "U.S.", "U.S.A.", "UNITED STATES"]

def COUNTRY_MAP : List (String × String) :=
  [("USA", "United States"), ("U.S.", "United States"), ("U.S.A.", "United States"),
   ("UNITED STATES OF AMERICA", "United States"), ("AMERICA", "United States"),
   ("CA", "Canada"), ("CAN", "Canada"), ("MX", "Mexico"), ("MEX", "Mexico"),
   ("UK", "United Kingdom"), ("GB", "United Kingdom"), ("GBR", "United Kingdom"),
   ("GREAT BRITAIN", "United Kingdom"), ("ENGLAND", "United Kingdom")]

/-- `standardize_country_code` from `data_cleaning.py`. -/
def standardize_country_code (country : Option String) : String :=
  if isBlankNan country then "United States"
  else
    let countryStr : List Char := stripL ((country.getD "").data)
    let countryUpper := upperL countryStr
    if US_VARIANTS.any (fun v => v.data = countryUpper) then "United States"
    else
      match COUNTRY_MAP.find? (fun p => countryUpper = p.1.data) with
      | some p => p.2
      | none => ⟨countryStr⟩

/-- `clean_phone_number` from `data_cleaning.py`. -/
def clean_phone_number (phone : Option String) : String :=
  if isBlankNan phone then ""
  else ⟨((phone.getD "").data).filter isAsciiDigit⟩

/-- The default `input_formats` list of `format_date` in `data_cleaning.py`:
`['%Y-%m-%d', '%m/%d/%Y', '%m-%d-%Y', '%m/%d/%y', '%d-%m-%Y', '%Y/%m/%d',
'%y/%m/%d', '%m-%d-%y']`. -/
def defaultFormats : List DateFmt :=
  [fmtYmdDash, fmtMdYSlash, fmtMdYDash, fmtMdySlash, fmtDmYDash,
   fmtYmdSlash, fmtY2mdSlash, fmtMdyDash]

/-- `format_date` from `data_cleaning.py`. -/
def format_date (date_str : Option String)
    (input_formats : Option (List DateFmt) := none)
    (default_return : String := "") : String :=
  if isBlankNan date_str then default_return
  else
    let l := stripL ((date_str.getD "").data)
    let fmts :=
      match input_formats with
      | none => defaultFormats
      | some [] => defaultFormats
      | some fs => fs
    match firstParse fmts l with
    | some d => isoDate d
    | none =>
      if lenientYmd l then
        match pyStrptimeL fmtYmdDash l with
        | some d => isoDate d
        | none => default_return
      else default_return

def MIN_COUNSELING_DATE : String := "2023-10-01"

/-- Lexicographic `datetime` comparison `a >= b`. -/
def dateGe (a b : MyDate) : Bool :=
  b.year < a.year || (b.year = a.year &&
    (b.month < a.month || (b.month = a.month && b.day ≤ a.day)))

/-- `validate_counseling_date` from `data_cleaning.py`. -/
def validate_counseling_date (date_str : String) : Bool :=
  if date_str.data.isEmpty then true
  else
    match pyStrptimeL fmtYmdDash date_str.data,
        pyStrptimeL fmtYmdDash MIN_COUNSELING_DATE.data with
    | some d, some m => dateGe d m
    | _, _ => false

/-- `clean_whitespace` from `data_cleaning.py`: per line, strip, collapse
whitespace runs, remove `[word]:` artifacts; drop empty lines; rejoin. -/
def clean_whitespace (text : Option String) : String :=
  if isBlankNan text then ""
  else
    let lines := splitOnChar '\n' ((text.getD "").data)
    let cleaned := (lines.map (fun line =>
      stripTags (joinChar ' ' (splitWs (stripL line))))).filter (fun l => !l.isEmpty)
    ⟨joinChar '\n' cleaned⟩

/-- `map_gender_to_sex` from `data_cleaning.py`. -/
def map_gender_to_sex (gender_value : Option String) : String :=
  if isBlankNan gender_value then ""
  else
    let g := lowerL ((gender_value.getD "").data)
    if containsSub g "female".data then "Female"
    else if containsSub g "male".data && !containsSub g "female".data then "Male"
    else ""

/-- `split_multi_value` from `data_cleaning.py` (default delimiter `;`). -/
def split_multi_value (value : Option String) (delimiter : Char := ';') : List String :=
  if isBlankNan value then []
  else
    ((splitOnChar delimiter ((value.getD "").data)).map stripL).filterMap
      (fun item => if item.isEmpty then none else some (⟨item⟩ : String))

/-- `clean_numeric` from `data_cleaning.py`. -/
def clean_numeric (value : Option String) : String :=
  if isBlankNan value then ""
  else
    match pyParseFloat (value.getD "") with
    | some (.finite d) => if d.isInt then toString d.toInt else renderDec d
    | some (.inf neg) => if neg then "-inf" else "inf"
    | some .nan => "nan"
    | none => ""

/-- `max(0, min(100, float_val))` exactly as CPython evaluates it on the
mixed `int`/`float` arguments: `min`/`max` keep their first argument on
ties and on NaN comparisons, so out-of-range and NaN inputs come back as
the Python ints `0`/`100`. -/
def clampPy : PyFloat → Sum Int PyDec
  | .finite d =>
    if d.ltInt 100 then (if d.gtInt 0 then Sum.inr d else Sum.inl 0)
    else Sum.inl 100
  | .inf neg => if neg then Sum.inl 0 else Sum.inl 100
  | .nan => Sum.inl 100

/-- `str()` of the clamp result (Python `str` of an int or of a float). -/
def renderClamp : Sum Int PyDec → String
  | Sum.inl n => toString n
  | Sum.inr d => renderDec d

/-- `clean_percentage` from `data_cleaning.py`; the `error` case models
the `raise ValueError(f"Invalid percentage value: {value}")`. -/
def clean_percentage (value : Option String) : Except String String :=
  if isBlankNan value then Except.ok "0"
  else
    match pyParseFloat (value.getD "") with
    | some f => Except.ok (renderClamp (clampPy f))
    | none => Except.error ("Invalid percentage value: " ++ value.getD "")

/-- `MAX_FIELD_LENGTHS["CounselorNotes"]` from `config.py`. -/
def MAX_COUNSELOR_NOTES : Nat := 1000

/-- `truncate_counselor_notes` from `data_cleaning.py`. -/
def truncate_counselor_notes (notes : Option String)
    (max_length : Nat := MAX_COUNSELOR_NOTES) : String :=
  let cleaned := (clean_whitespace notes).data
  if cleaned.length ≤ max_length then ⟨cleaned⟩
  else
    let truncated := cleaned.take max_length
    let lastBoundary :=
      [('.' : Char), '!', '?', '\n'].foldl (fun best b => max best (rfindI b truncated)) (-1)
    if 0 < lastBoundary then ⟨cleaned.take (lastBoundary.toNat + 1)⟩
    else
      let lastSpace := rfindI ' ' truncated
      if 0 < lastSpace then ⟨cleaned.take lastSpace.toNat⟩
      else ⟨truncated⟩

end DataCleaning

/-- An `xml.etree` element: tag, text, ordered children. -/
inductive Elem where
  | mk (tag : String) (text : String) (children : List Elem)
deriving Repr

def Elem.tag : Elem → String
  | .mk t _ _ => t

def Elem.text : Elem → String
  | .mk _ x _ => x

def Elem.children : Elem → List Elem
  | .mk _ _ cs => cs

/-- Leaf-element shorthand for `create_element(parent, name, text)`. -/
def el (tag text : String) : Elem := .mk tag text []

/-- Element with children (text empty, as for container elements). -/
def elC (tag : String) (children : List Elem) : Elem := .mk tag "" children

/-- Whether the element has a direct child with the given tag. -/
def Elem.hasChild (e : Elem) (t : String) : Bool := e.children.any (fun c => c.tag = t)

/-- Text of the first direct child with the given tag (`find(t).text`). -/
def Elem.childText (e : Elem) (t : String) : Option String :=
  (e.children.find? (fun c => c.tag = t)).map Elem.text

/-- One `validator.add_issue(record_id, severity, category, field, message)`
event. -/
structure Issue where
  recordId : String
  severity : String
  category : String
  fieldName : String
  message : String
deriving DecidableEq, Repr

/- The `ValidationCategory` constants of `config.py`. -/
namespace VC

def MISSING_REQUIRED : String := "missing_required_field"
def MISSING_FIELD : String := "missing_field"
def INVALID_FORMAT : String := "invalid_format"
def INVALID_VALUE : String := "invalid_value"
def INVALID_DATE : String := "invalid_date"
def TRUNCATED_VALUE : String := "truncated_value"
def STANDARDIZED_VALUE : String := "standardized_value"
def PROCESSING_ERROR : String := "processing_error"

end VC

/-- One CSV row from `csv.DictReader`: a column-name/value association
list (all header columns map to strings; a missing column is an absent
key). -/
def Row := List (String × String)

/-- `row.get(key, dflt)`. -/
def rowGet (row : Row) (key dflt : String) : String :=
  match row.find? (fun p => p.1 = key) with
  | some p => p.2
  | none => dflt

def strStrip (s : String) : String := ⟨PyStr.stripL s.data⟩

def strLower (s : String) : String := ⟨PyStr.lowerL s.data⟩

namespace DataValidation

open PyStr PyFloatModel DataCleaning

/-- `str.isdigit()` (ASCII): nonempty and all digits. -/
def isDigitStr (l : List Char) : Bool := !l.isEmpty && PyDate.allDigits l

/-- `validate_record` from `data_validation.py`. The global
`validator.add_issue` calls become the returned issue list; the
`float(contact_hours or 0)` expression at the session-type check is the
one statement that can raise, modelled by the `error` case (the source
has no handler for it). -/
def validate_record (row : Row) (row_index : Nat) (record_id : String) :
    Except String (Bool × List Issue) :=
  let record_valid := !record_id.data.isEmpty
  let i1 : List Issue :=
    if record_id.data.isEmpty then
      [⟨"Row_" ++ toString row_index, "error", VC.MISSING_REQUIRED,
        "Contact ID", "Missing Contact ID (required field)"⟩]
    else []
  let last_name := rowGet row "Last Name" ""
  let i2 := i1 ++ (if last_name.data.isEmpty then
    [⟨record_id, "warning", VC.MISSING_FIELD, "Last Name", "Missing Last Name"⟩] else [])
  let first_name := rowGet row "First Name" ""
  let i3 := i2 ++ (if first_name.data.isEmpty then
    [⟨record_id, "warning", VC.MISSING_FIELD, "First Name", "Missing First Name"⟩] else [])
  let phone := rowGet row "Contact: Phone" ""
  let cleanPhone := clean_phone_number (some phone)
  let i4 := i3 ++ (if !phone.data.isEmpty && cleanPhone.data.isEmpty then
    [⟨record_id, "warning", VC.INVALID_FORMAT, "Phone",
      "Invalid phone number format: " ++ phone⟩] else [])
  let email := rowGet row "Email" ""
  let i5 := i4 ++ (if !email.data.isEmpty && !containsSub email.data ['@'] then
    [⟨record_id, "warning", VC.INVALID_FORMAT, "Email",
      "Invalid email format: " ++ email⟩] else [])
  let zip_code := rowGet row "Mailing Zip/Postal Code" ""
  let i6 := i5 ++ (if !zip_code.data.isEmpty && !isDigitStr (stripL zip_code.data) then
    [⟨record_id, "warning", VC.INVALID_FORMAT, "ZipCode",
      "Non-numeric ZIP code: " ++ zip_code⟩] else [])
  let country := rowGet row "Mailing Country" "US"
  let standardized := standardize_country_code (some country)
  let i7 := i6 ++ (if standardized ≠ country then
    [⟨record_id, "info", VC.STANDARDIZED_VALUE, "Country",
      "Standardized country: \x27" ++ country ++ "\x27 -> \x27" ++ standardized ++ "\x27"⟩]
    else [])
  let signature_date := rowGet row "Client Signature - Date" ""
  let i8 := i7 ++ (if !signature_date.data.isEmpty &&
      (format_date (some signature_date)).data.isEmpty then
    [⟨record_id, "warning", VC.INVALID_FORMAT, "Signature Date",
      "Invalid date format: " ++ signature_date⟩] else [])
  let race := rowGet row "Race" ""
  let i9 := i8 ++ (if race.data.isEmpty then
    [⟨record_id, "warning", VC.MISSING_FIELD, "Race", "Missing Race information"⟩] else [])
  let female_ownership := rowGet row "Business Ownership - % Female" ""
  let i10 := i9 ++
    (if female_ownership.data.isEmpty then []
     else
       match clean_percentage (some female_ownership) with
       | Except.ok _ => []
       | Except.error _ =>
         [⟨record_id, "warning", VC.INVALID_FORMAT, "Business Ownership - % Female",
           "Invalid percentage: " ++ female_ownership⟩])
  let counseling_date := rowGet row "Date" ""
  let i11 := i10 ++
    (if counseling_date.data.isEmpty then []
     else
       let formatted := format_date (some counseling_date)
       if formatted.data.isEmpty then
         [⟨record_id, "warning", VC.INVALID_FORMAT, "Date Counseled",
           "Invalid date format: " ++ counseling_date⟩]
       else if !validate_counseling_date formatted then
         [⟨record_id, "warning", VC.INVALID_DATE, "Date Counseled",
           "Counseling date " ++ formatted ++ " is before 2023-10-01"⟩]
       else [])
  let session_type := rowGet row "Type of Session" "Telephone"
  let contact_hours := rowGet row "Duration (hours)" "0"
  if session_type ∉ ["Prepare Only", "Training", "Update Only"] then
    let fv : Option PyFloat :=
      if contact_hours.data.isEmpty then some (.finite ⟨0, 0⟩)
      else pyParseFloat contact_hours
    match fv with
    | none =>
      Except.error ("could not convert string to float: \x27" ++ contact_hours ++ "\x27")
    | some f =>
      let i12 := i11 ++
        (if f.leZero then
          [⟨record_id, "warning", VC.INVALID_VALUE, "Contact Hours",
            "Contact Hours should be greater than 0 for " ++ session_type ++ " sessions"⟩]
         else [])
      let counselor_notes := rowGet row "Comments" ""
      let i13 := i12 ++ (if 1000 < counselor_notes.data.length then
        [⟨record_id, "info", VC.TRUNCATED_VALUE, "Counselor Notes",
          "Counselor notes truncated from " ++ toString counselor_notes.data.length ++
            " to 1000 characters"⟩] else [])
      Except.ok (record_valid, i13)
  else
    let counselor_notes := rowGet row "Comments" ""
    let i13 := i11 ++ (if 1000 < counselor_notes.data.length then
      [⟨record_id, "info", VC.TRUNCATED_VALUE, "Counselor Notes",
        "Counselor notes truncated from " ++ toString counselor_notes.data.length ++
          " to 1000 characters"⟩] else [])
    Except.ok (record_valid, i13)

end DataValidation

namespace CsvToXml

open PyStr PyFloatModel PyDate DataCleaning

/-- `re.match(r'^\d{5}', s)`: the match object when the first five
characters are digits, else `None`. -/
def reMatchLead5 (l : List Char) : Option (List Char) :=
  let run := l.take 5
  if run.length = 5 && allDigits run then some run else none

/-- Result of a section builder in mutation-style `ElementTree` code: the
section element holding every child attached before control left the
builder, the issues logged, and the exception text if one was raised. -/
structure BRes where
  elem : Elem
  issues : List Issue
  err : Option String
deriving Repr

/-- `build_client_request_section` from `csv_to_xml.py`. The ZIP step
embeds the source expression
`zip_5digit_match.group(0) if zip_5digit_match.group(0) else ''`, which
dereferences the match object before testing it: when the regex does not
match, `zip_5digit_match` is `None` and the attribute access raises
`AttributeError`, leaving the address subtree partially built and the
warning branch below it unreached. -/
def build_client_request_section (row : Row) (record_id : String) : BRes :=
  let clientName := elC "ClientNamePart1"
    [el "Last" (rowGet row "Last Name" ""), el "First" (rowGet row "First Name" ""),
     el "Middle" (rowGet row "Middle Name" "")]
  let email := el "Email" (rowGet row "Email" "")
  let phone := elC "PhonePart1"
    [el "Primary" (clean_phone_number (some (rowGet row "Contact: Phone" ""))),
     el "Secondary" ""]
  let street1 := el "Street1" (rowGet row "Mailing Street" "")
  let street2 := el "Street2" ""
  let city := el "City" (rowGet row "Mailing City" "")
  let state := el "State" (standardize_state_name (some (rowGet row "Mailing State/Province" "")))
  let zipFull := stripL (rowGet row "Mailing Zip/Postal Code" "").data
  match reMatchLead5 zipFull with
  | none =>
    { elem := elC "ClientRequest"
        [clientName, email, phone, elC "AddressPart1" [street1, street2, city, state]],
      issues := [],
      err := some "AttributeError: \x27NoneType\x27 object has no attribute \x27group\x27" }
  | some grp =>
    let zip5 : List Char := if grp.isEmpty then [] else grp
    let zipIssues : List Issue :=
      if zip5.isEmpty && !zipFull.isEmpty then
        [⟨record_id, "warning", VC.INVALID_FORMAT, "Mailing Zip/Postal Code",
          "Could not parse 5-digit ZIP from \x27" ++ (⟨zipFull⟩ : String) ++ "\x27."⟩]
      else []
    let address := elC "AddressPart1"
      [street1, street2, city, state, el "ZipCode" ⟨zip5⟩, el "Zip4Code" "",
       elC "Country" [el "Code" (standardize_country_code (some (rowGet row "Mailing Country" "US")))]]
    let signature_onfile := rowGet row "Client Signature(On File)" "No"
    let onfile := if signature_onfile = "1" then "Yes" else signature_onfile
    { elem := elC "ClientRequest"
        [clientName, email, phone, address,
         el "SurveyAgreement" (rowGet row "Agree to Impact Survey" "No"),
         elC "ClientSignature"
           [el "Date" (format_date (some (rowGet row "Client Signature - Date" ""))),
            el "OnFile" onfile]],
      issues := zipIssues,
      err := none }

/-- `build_client_intake_section` from `csv_to_xml.py`. The one raise
point is `clean_percentage` on the female-ownership column; everything
attached before it stays on the element. -/
def build_client_intake_section (row : Row) (record_id : String) : BRes :=
  let race_codes := split_multi_value (some (rowGet row "Race" ""))
  let raceKids :=
    if !race_codes.isEmpty then race_codes.map (el "Code" ·)
    else [el "Code" "Prefer not to say"]
  let raceIssues : List Issue :=
    if race_codes.isEmpty then
      [⟨record_id, "warning", VC.MISSING_FIELD, "Race/Code",
        "Race Code missing, defaulted to \x27Prefer not to say\x27."⟩]
    else []
  let selfDescribed := strStrip (rowGet row "SelfDescribedRace_From_CSV" "")
  let race := elC "Race"
    (raceKids ++ (if !selfDescribed.data.isEmpty then [el "SelfDescribedRace" selfDescribed] else []))
  let ethnicity := strStrip (rowGet row "Ethnicity::" "")
  let c2 := if !ethnicity.data.isEmpty then [el "Ethnicity" ethnicity] else []
  let sex := map_gender_to_sex (some (rowGet row "Gender" ""))
  let c3 := if !sex.data.isEmpty then [el "Sex" sex] else []
  let disability := strStrip (rowGet row "Disability" "")
  let c4 := if !disability.data.isEmpty then [el "Disability" disability] else []
  let military := strStrip (rowGet row "Veteran Status" "")
  let c5 := if !military.data.isEmpty then [el "MilitaryStatus" military] else []
  let nonMilitary : List String := ["prefer not to say", "no military service", ""]
  let branch := strStrip (rowGet row "Branch Of Service" "")
  let c6 : List Elem × List Issue :=
    if !military.data.isEmpty && strLower military ∉ nonMilitary then
      if !branch.data.isEmpty && strLower branch ∉ nonMilitary then
        ([el "BranchOfService" branch], [])
      else
        ([], [⟨record_id, "error", VC.MISSING_REQUIRED, "BranchOfService",
          "Branch Of Service required for Military Status \x27" ++ military ++
            "\x27 but not provided/valid."⟩])
    else ([], [])
  let media_codes := split_multi_value (some (rowGet row "What Prompted you to contact us?" ""))
  let media_other := strStrip (rowGet row "Internet (specify)" "")
  let c7 :=
    if !media_codes.isEmpty || !media_other.data.isEmpty then
      [elC "Media" (media_codes.map (el "Code" ·) ++
        (if !media_other.data.isEmpty then [el "Other" media_other] else []))]
    else []
  let internet := strStrip (rowGet row "ClientIntake_Internet" "")
  let c8 := if !internet.data.isEmpty then [el "Internet" internet] else []
  let inBusiness := rowGet row "Currently In Business?" "No"
  let c9 := [el "CurrentlyInBusiness" inBusiness]
  let c10 := [el "CurrentlyExporting" (rowGet row "Are you currently exporting?(old)" "No")]
  let c11 := [el "CompanyName" (rowGet row "Account Name" ""),
              el "BusinessType" (rowGet row "Type of Business" "")]
  let builtSoFar := [race] ++ c2 ++ c3 ++ c4 ++ c5 ++ c6.1 ++ c7 ++ c8 ++ c9 ++ c10 ++ c11
  let issuesSoFar := raceIssues ++ c6.2
  match clean_percentage (some (rowGet row "Business Ownership - % Female(old)" "0")) with
  | Except.error e =>
    { elem := elC "ClientIntake" (builtSoFar ++ [elC "BusinessOwnership" []]),
      issues := issuesSoFar,
      err := some e }
  | Except.ok femaleOwn =>
    let c12 := [elC "BusinessOwnership" [el "Female" femaleOwn]]
    let c13 := [el "ConductingBusinessOnline" (rowGet row "Conduct Business Online?" "No"),
                el "ClientIntake_Certified8a" (rowGet row "8(a) Certified?(old)" "No"),
                el "TotalNumberOfEmployees" (clean_numeric (some (rowGet row "Total Number of Employees" "0"))),
                el "NumberOfEmployeesInExportingBusiness" "0",
                elC "ClientAnnualIncomePart2"
                  [el "GrossRevenues" (clean_numeric (some (rowGet row "Gross Revenues/Sales" "0"))),
                   el "ProfitLoss" (clean_numeric (some (rowGet row "Profits/Losses" "0"))),
                   el "ExportGrossRevenuesOrSales" "0"]]
    let le_codes := split_multi_value (some (rowGet row "Legal Entity of Business" ""))
    let le_other := strStrip (rowGet row "Other legal entity (specify)" "")
    let c14 : List Elem × List Issue :=
      if strLower inBusiness = "yes" then
        let codeKids :=
          if !le_codes.isEmpty then le_codes.map (el "Code" ·)
          else [el "Code" "Other"]
        let leIssues : List Issue :=
          if le_codes.isEmpty && le_other.data.isEmpty then
            [⟨record_id, "error", VC.MISSING_REQUIRED, "LegalEntity/Code",
              "Client is in business, but Legal Entity is missing."⟩]
          else []
        ([elC "LegalEntity"
            (codeKids ++ (if !le_other.data.isEmpty then [el "Other" le_other] else []))],
         leIssues)
      else ([], [])
    let ruralUrban := rowGet row "Rural_vs_Urban_From_CSV" "Undetermined"
    let fips := strStrip (rowGet row "FIPS_Code_From_CSV" "")
    let c15 : List Elem × List Issue :=
      if strLower ruralUrban ∈ ["rural", "urban"] then
        if !fips.data.isEmpty then ([el "Rural_vs_Urban" ruralUrban, el "FIPS_Code" fips], [])
        else
          ([el "Rural_vs_Urban" ruralUrban],
           [⟨record_id, "error", VC.MISSING_REQUIRED, "FIPS_Code",
             "FIPS Code required for Rural/Urban status \x27" ++ ruralUrban ++
               "\x27 but is missing."⟩])
      else ([el "Rural_vs_Urban" ruralUrban], [])
    let cs_codes := split_multi_value (some (rowGet row "Nature of the Counseling Seeking?" ""))
    let cs_other := strStrip (rowGet row "Nature of the Counseling Seeking - Other Detail" "")
    let c16 : List Elem × List Issue :=
      if !cs_codes.isEmpty || !cs_other.data.isEmpty then
        let otherViaCodes := cs_codes.any (fun c => strLower c = "other")
        let (codeKids, isOtherPresent, fillIssues) :
            List Elem × Bool × List Issue :=
          if !cs_codes.isEmpty then (cs_codes.map (el "Code" ·), otherViaCodes, [])
          else if !cs_other.data.isEmpty then ([el "Code" "Other"], true, [])
          else
            ([el "Code" "Other"], otherViaCodes,
             [⟨record_id, "warning", VC.MISSING_FIELD, "CounselingSeeking",
               "CounselingSeeking missing, defaulted to Other."⟩])
        let otherIssues : List Issue :=
          if isOtherPresent && cs_other.data.isEmpty then
            [⟨record_id, "error", VC.MISSING_REQUIRED, "CounselingSeeking/Other",
              "CounselingSeeking code is \x27Other\x27 but detail text is missing."⟩]
          else []
        ([elC "CounselingSeeking"
            (codeKids ++ (if isOtherPresent then [el "Other" cs_other] else []))],
         fillIssues ++ otherIssues)
      else ([], [])
    { elem := elC "ClientIntake"
        (builtSoFar ++ c12 ++ c13 ++ c14.1 ++ c15.1 ++ c16.1),
      issues := issuesSoFar ++ c14.2 ++ c15.2 ++ c16.2,
      err := none }

def VALID_SESSION_TYPES : List String :=
  ["Face-to-face", "Online", "Prepare Only", "Telephone", "Training", "Update Only"]

def NO_CONTACT_HOUR_SESSION_TYPES : List String :=
  ["Prepare Only", "Training", "Update Only"]

/-- `build_counselor_record_section` from `csv_to_xml.py`. The
`float(contact_val or 0)` at the contact-hours rule is modelled with the
error channel for fidelity, though `clean_numeric` output always parses. -/
def build_counselor_record_section (row : Row) (record_id : String) : BRes :=
  let namePart3 := elC "ClientNamePart3"
    [el "Last" (rowGet row "Last Name" ""), el "First" (rowGet row "First Name" ""),
     el "Middle" (rowGet row "Middle Name" "")]
  let phonePart3 := elC "PhonePart3"
    [el "Primary" (clean_phone_number (some (rowGet row "Contact: Phone" ""))),
     el "Secondary" ""]
  let zipFullP3 := stripL (rowGet row "Mailing Zip/Postal Code" "").data
  let zip5P3 : List Char :=
    match reMatchLead5 zipFullP3 with
    | some grp => grp
    | none => []
  let addressPart3 := elC "AddressPart3"
    [el "Street1" (rowGet row "Mailing Street" ""), el "ZipCode" ⟨zip5P3⟩]
  let bsd0 := format_date (some (rowGet row "Business Start Date" ""))
  let bsd := if bsd0.data.isEmpty then
    format_date (some (rowGet row "Date Started (Meeting)" "")) else bsd0
  let bsdKids := if !bsd.data.isEmpty then [el "BusinessStartDatePart3" bsd] else []
  let provided := split_multi_value
    (some (rowGet row "Services Provided" "Business Start-up/Preplanning"))
  let sessionRaw := rowGet row "Type of Session" "Telephone"
  let session0 := if strStrip sessionRaw = "Update" then "Update Only" else strStrip sessionRaw
  let sessionIssues : List Issue :=
    if session0 ∉ VALID_SESSION_TYPES then
      [⟨record_id, "warning", VC.INVALID_VALUE, "Type of Session",
        "Invalid session type \x27" ++ sessionRaw ++ "\x27, defaulted to Telephone."⟩]
    else []
  let session := if session0 ∉ VALID_SESSION_TYPES then "Telephone" else session0
  let language := elC "Language"
    ((split_multi_value (some (rowGet row "Language(s) Used" "English"))).map (el "Code" ·) ++
      [el "Other" (rowGet row "Language(s) Used (Other)" "")])
  let preHours :=
    [el "PartnerSessionNumber" (rowGet row "Activity ID" ""),
     el "FundingSource" "", namePart3,
     el "Email" (rowGet row "Email" ""), phonePart3, addressPart3,
     el "VerifiedToBeInBusiness" "Undetermined",
     el "ReportableImpact" (rowGet row "Reportable Impact" "No"),
     el "DateOfReportableImpact" (format_date (some (rowGet row "Reportable Impact Date" ""))),
     el "CurrentlyExporting" "No"] ++ bsdKids ++
    [el "TotalNumberOfEmployees" (clean_numeric (some (rowGet row
        "Total No. of Employees (Meeting)" (rowGet row "Total Number of Employees" "0")))),
     el "NumberOfEmployeesInExportingBusiness" "0",
     elC "ClientAnnualIncomePart3"
       [el "GrossRevenues" (clean_numeric (some (rowGet row
          "Gross Revenues/Sales (Meeting)" (rowGet row "Gross Revenues/Sales" "0")))),
        el "ProfitLoss" (clean_numeric (some (rowGet row
          "Profit & Loss (Meeting)" (rowGet row "Profits/Losses" "0")))),
        el "ExportGrossRevenuesOrSales" "0", el "GrowthIndicator" ""],
     elC "CounselingProvided" (provided.map (el "Code" ·) ++ [el "Other" ""]),
     el "SessionType" session, language,
     el "DateCounseled" (format_date (some (rowGet row "Date" ""))),
     el "CounselorName" (rowGet row "Name of Counselor" "")]
  let contactVal := clean_numeric (some (rowGet row "Duration (hours)" "0"))
  let fv : Option PyFloat :=
    if contactVal.data.isEmpty then some (.finite ⟨0, 0⟩)
    else pyParseFloat contactVal
  match fv with
  | none =>
    { elem := elC "CounselorRecord" (preHours ++ [elC "CounselingHours" []]),
      issues := sessionIssues,
      err := some ("could not convert string to float: \x27" ++ contactVal ++ "\x27") }
  | some f =>
    let contact :=
      if session ∉ NO_CONTACT_HOUR_SESSION_TYPES && f.leZero then "0.5" else contactVal
    { elem := elC "CounselorRecord"
        (preHours ++
         [elC "CounselingHours"
            [el "Contact" contact,
             el "Prepare" (clean_numeric (some (rowGet row "Prep Hours" "0"))),
             el "Travel" (clean_numeric (some (rowGet row "Travel Hours" "0")))],
          el "CounselorNotes" (truncate_counselor_notes (some (rowGet row "Comments" ""))),
          el "SBALoanAmount" (clean_numeric (some (rowGet row "SBA Loan Amount" "0"))),
          el "NonSBALoanAmount" (clean_numeric (some (rowGet row "Non-SBA Loan Amount" "0"))),
          el "EquityCapitalReceived" (clean_numeric (some (rowGet row "Amount of Equity Capital Received" "0")))]),
      issues := sessionIssues,
      err := none }

/-- The per-record body of the `try` block in `create_xml_from_csv`:
record element, location, then the three sections; an exception leaves
the children attached so far on the record element. -/
def buildCounselingRecord (row : Row) (record_id : String) : BRes :=
  let base := [el "PartnerClientNumber" record_id,
               elC "Location" [el "LocationCode" (rowGet row "LocationCode" "249003")]]
  let req := build_client_request_section row record_id
  match req.err with
  | some e =>
    { elem := elC "CounselingRecord" (base ++ [req.elem]), issues := req.issues, err := some e }
  | none =>
    let intake := build_client_intake_section row record_id
    match intake.err with
    | some e =>
      { elem := elC "CounselingRecord" (base ++ [req.elem, intake.elem]),
        issues := req.issues ++ intake.issues, err := some e }
    | none =>
      let rec3 := build_counselor_record_section row record_id
      { elem := elC "CounselingRecord" (base ++ [req.elem, intake.elem, rec3.elem]),
        issues := req.issues ++ intake.issues ++ rec3.issues,
        err := rec3.err }

/-- The `ConversionRun` state accumulated by `create_xml_from_csv`:
children of the `CounselingInformation` root, counters, and the tracked
issues. -/
structure RunState where
  children : List Elem
  processed : Nat
  skipped : Nat
  failed : Nat
  issues : List Issue
deriving Repr

/-- One iteration of the row loop of `create_xml_from_csv`. A raise from
`validate_record` happens outside the `try` block and aborts the run; a
raise from a section builder is caught, logged as a `processing_error`
Issue, counted as a failed record, and the loop continues. In both raise
cases the partially built record element is already attached to the
root. -/
def processRow (st : RunState) (idx : Nat) (row : Row) : Except String RunState :=
  let record_id := rowGet row "Contact ID" ("Row_" ++ toString idx)
  match DataValidation.validate_record row idx record_id with
  | Except.error e => Except.error e
  | Except.ok (valid, vIssues) =>
    if !valid then
      Except.ok { st with skipped := st.skipped + 1, issues := st.issues ++ vIssues }
    else
      let b := buildCounselingRecord row record_id
      match b.err with
      | none =>
        Except.ok { st with children := st.children ++ [b.elem],
                            processed := st.processed + 1,
                            issues := st.issues ++ vIssues ++ b.issues }
      | some e =>
        Except.ok { st with children := st.children ++ [b.elem],
                            failed := st.failed + 1,
                            issues := st.issues ++ vIssues ++ b.issues ++
                              [⟨record_id, "error", VC.PROCESSING_ERROR, "record",
                                "Error processing record: " ++ e⟩] }

/-- The row loop, starting at row index `idx` (the source enumerates
from 1). -/
def runRows (idx : Nat) (rows : List Row) (st : RunState) : Except String RunState :=
  match rows with
  | [] => Except.ok st
  | row :: rest =>
    match processRow st idx row with
    | Except.error e => Except.error e
    | Except.ok st2 => runRows (idx + 1) rest st2

/-- `create_xml_from_csv` from `csv_to_xml.py`, restricted to its
in-memory behaviour: the rows are already read (file access is the
caller's fatal-error surface) and the returned state is what is
serialized under the `CounselingInformation` root. -/
def create_xml_from_csv (rows : List Row) : Except String RunState :=
  runRows 1 rows ⟨[], 0, 0, 0, []⟩

end CsvToXml

namespace Converters

open PyStr PyFloatModel PyDate DataCleaning CsvToXml

/-- `CounselingConverter._build_client_request_section` from
`src/converters/counseling_converter.py`: same section as the one in
`csv_to_xml.py`, but the ZIP ternary tests the match object itself
(`zip_5digit_match.group(0) if zip_5digit_match else ''`), so an
unmatched ZIP yields the empty string, the warning Issue, and an empty
`ZipCode` element instead of a raise. Nothing in this builder can raise:
it returns the element and its issues directly. -/
def build_client_request_section (row : Row) (record_id : String) :
    Elem × List Issue :=
  let clientName := elC "ClientNamePart1"
    [el "Last" (rowGet row "Last Name" ""), el "First" (rowGet row "First Name" ""),
     el "Middle" (rowGet row "Middle Name" "")]
  let email := el "Email" (rowGet row "Email" "")
  let phone := elC "PhonePart1"
    [el "Primary" (clean_phone_number (some (rowGet row "Contact: Phone" ""))),
     el "Secondary" ""]
  let zipFull := stripL (rowGet row "Mailing Zip/Postal Code" "").data
  let zip5 : List Char :=
    match reMatchLead5 zipFull with
    | some grp => grp
    | none => []
  let zipIssues : List Issue :=
    if zip5.isEmpty && !zipFull.isEmpty then
      [⟨record_id, "warning", VC.INVALID_FORMAT, "Mailing Zip/Postal Code",
        "Could not parse 5-digit ZIP from \x27" ++ (⟨zipFull⟩ : String) ++ "\x27."⟩]
    else []
  let address := elC "AddressPart1"
    [el "Street1" (rowGet row "Mailing Street" ""), el "Street2" "",
     el "City" (rowGet row "Mailing City" ""),
     el "State" (standardize_state_name (some (rowGet row "Mailing State/Province" ""))),
     el "ZipCode" ⟨zip5⟩, el "Zip4Code" "",
     elC "Country" [el "Code" (standardize_country_code (some (rowGet row "Mailing Country" "US")))]]
  let signature_onfile := rowGet row "Client Signature(On File)" "No"
  (elC "ClientRequest"
    [clientName, email, phone, address,
     el "SurveyAgreement" (rowGet row "Agree to Impact Survey" "No"),
     elC "ClientSignature"
       [el "Date" (format_date (some (rowGet row "Client Signature - Date" ""))),
        el "OnFile" (if signature_onfile = "1" then "Yes" else "No")]],
   zipIssues)

end Converters

namespace ClassData

open PyStr PyDate

/-- The format list of `format_date` in `classDataConverter.py`:
`['%Y-%m-%d', '%m/%d/%Y', '%d-%m-%Y', '%m-%d-%Y', '%m/%d/%y']`. -/
def trainingFormats : List DateFmt :=
  [fmtYmdDash, fmtMdYSlash, fmtDmYDash, fmtMdYDash, fmtMdySlash]

/-- `format_date` from `classDataConverter.py`: absent/NaN cells (`none`)
and empty or unparsable strings all fall back to the fixed literal
`'2023-12-12'`; the input is not stripped. -/
def format_date (date_str : Option String) : String :=
  match date_str with
  | none => "2023-12-12"
  | some s =>
    if s.data.isEmpty then "2023-12-12"
    else
      match firstParse trainingFormats s.data with
      | some d => isoDate d
      | none => "2023-12-12"

/-- The `DateTrainingStarted` element emitted by `convert_csv_to_xml`. -/
def buildDateTrainingStarted (cell : Option String) : Elem :=
  el "DateTrainingStarted" (format_date cell)

/-- One training attendee row, restricted to the demographic columns
`calculate_demographics` reads; `none` is a NaN cell. -/
structure TRow where
  business : Option String
  gender : Option String
  disability : Option String
  military : Option String
  race : Option String
  ethnicity : Option String
deriving Repr

/-- One training event group (`df.groupby('Class/Event ID')` member) plus
whether each demographic column was found by the column-synonym loops
(`business_col is not None`, etc.). -/
structure TGroup where
  rows : List TRow
  hasBusinessCol : Bool
  hasGenderCol : Bool
  hasDisabilityCol : Bool
  hasMilitaryCol : Bool
  hasRaceCol : Bool
  hasEthnicityCol : Bool
deriving Repr

/-- `series.fillna('')`. -/
def fillna (v : Option String) : String := v.getD ""

/-- `series.astype(str).str.lower().str.contains(pat)` for an alternation
`pat` of literal substrings. -/
def containsAnyPat (s : String) (pats : List String) : Bool :=
  pats.any (fun p => containsSub (lowerL s.data) p.data)

/-- `sum(df[col].fillna('').astype(str).str.lower().str.contains(pat))`,
zero when the column-synonym loop found no column. -/
def countMatch (g : TGroup) (has : Bool) (get : TRow → Option String)
    (pats : List String) : Nat :=
  if has then (g.rows.filter (fun r => containsAnyPat (fillna (get r)) pats)).length
  else 0

def cibCount (g : TGroup) : Nat :=
  countMatch g g.hasBusinessCol (·.business) ["yes", "true", "1", "y"]

/-- `not_in_business = total - currently_in_business` (computed from the
raw group size, before the schema floor). -/
def nibCount (g : TGroup) : Nat :=
  if g.hasBusinessCol then g.rows.length - cibCount g else 0

def femaleCount (g : TGroup) : Nat :=
  countMatch g g.hasGenderCol (·.gender) ["female", "f", "woman", "women"]

def maleCount (g : TGroup) : Nat :=
  countMatch g g.hasGenderCol (·.gender) ["male", "m", "man", "men"]

def disabilitiesCount (g : TGroup) : Nat :=
  countMatch g g.hasDisabilityCol (·.disability) ["yes", "true", "1", "y"]

def activeDutyCount (g : TGroup) : Nat :=
  countMatch g g.hasMilitaryCol (·.military) ["active duty", "active-duty"]

def veteransCount (g : TGroup) : Nat :=
  countMatch g g.hasMilitaryCol (·.military) ["veteran"]

def sdVeteransCount (g : TGroup) : Nat :=
  countMatch g g.hasMilitaryCol (·.military) ["service disabled", "disabled vet"]

def reserveGuardCount (g : TGroup) : Nat :=
  countMatch g g.hasMilitaryCol (·.military) ["reserve", "guard"]

def spouseCount (g : TGroup) : Nat :=
  countMatch g g.hasMilitaryCol (·.military) ["spouse"]

def asianCount (g : TGroup) : Nat := countMatch g g.hasRaceCol (·.race) ["asian"]

def blackCount (g : TGroup) : Nat :=
  countMatch g g.hasRaceCol (·.race) ["black", "african american"]

def nativeAmericanCount (g : TGroup) : Nat :=
  countMatch g g.hasRaceCol (·.race) ["american indian", "alaska native", "native american"]

def pacificIslanderCount (g : TGroup) : Nat :=
  countMatch g g.hasRaceCol (·.race) ["hawaiian", "pacific islander"]

def whiteCount (g : TGroup) : Nat :=
  countMatch g g.hasRaceCol (·.race) ["white", "caucasian"]

def middleEasternCount (g : TGroup) : Nat :=
  countMatch g g.hasRaceCol (·.race) ["middle east"]

def northAfricanCount (g : TGroup) : Nat :=
  countMatch g g.hasRaceCol (·.race) ["north africa"]

def hispanicCount (g : TGroup) : Nat :=
  countMatch g g.hasEthnicityCol (·.ethnicity) ["hispanic", "latino"]

/-- `(~contains('hispanic|latino')) & (ethnicity_data != '')` summed. -/
def nonHispanicCount (g : TGroup) : Nat :=
  if g.hasEthnicityCol then
    (g.rows.filter (fun r =>
      !containsAnyPat (fillna r.ethnicity) ["hispanic", "latino"] &&
        !(fillna r.ethnicity).data.isEmpty)).length
  else 0

/-- The minorities/underserved sum: every non-white race bucket plus the
Hispanic ethnicity bucket, with no deduplication. -/
def minoritiesCount (g : TGroup) : Nat :=
  asianCount g + blackCount g + nativeAmericanCount g + pacificIslanderCount g +
    middleEasternCount g + northAfricanCount g + hispanicCount g

/-- `total = max(total, 2)`: the raw group size floored at the XSD
minimum of 2. -/
def totalTrained (g : TGroup) : Nat := max g.rows.length 2

/-- A bucket element, emitted only when its count is positive. -/
def optEl (tag : String) (n : Nat) : List Elem :=
  if 0 < n then [el tag (toString n)] else []

/-- Whether the `Race` subtree is emitted at all
(`any(value > 0 for value in demographics['race'].values())`). -/
def anyRace (g : TGroup) : Bool :=
  0 < asianCount g || 0 < blackCount g || 0 < nativeAmericanCount g ||
    0 < pacificIslanderCount g || 0 < whiteCount g || 0 < middleEasternCount g ||
    0 < northAfricanCount g

def anyEthnicity (g : TGroup) : Bool :=
  0 < hispanicCount g || 0 < nonHispanicCount g

/-- The `Race` subtree emitted inside `NumberTrained` when any race
bucket is positive. -/
def raceSubtree (g : TGroup) : Elem :=
  elC "Race"
    (optEl "Asian" (asianCount g) ++
     optEl "BlackOrAfricanAmerican" (blackCount g) ++
     optEl "NativeAmericanOrAlaskaNative" (nativeAmericanCount g) ++
     optEl "NativeHawaiianOrPacificIslander" (pacificIslanderCount g) ++
     optEl "White" (whiteCount g) ++
     optEl "MiddleEastern" (middleEasternCount g) ++
     optEl "NorthAfrican" (northAfricanCount g))

/-- The `Ethnicity` subtree emitted inside `NumberTrained` when either
ethnicity bucket is positive. -/
def ethnicitySubtree (g : TGroup) : Elem :=
  elC "Ethnicity"
    (optEl "HispanicOrLatinoOrigin" (hispanicCount g) ++
     optEl "NonHispanicOrLatinoOrigin" (nonHispanicCount g))

/-- The `NumberTrained` subtree of one `ManagementTrainingRecord`, exactly
as `convert_csv_to_xml` emits it from `calculate_demographics`. -/
def buildNumberTrained (g : TGroup) : Elem :=
  elC "NumberTrained"
    ([el "Total" (toString (totalTrained g))] ++
     optEl "CurrentlyInBusiness" (cibCount g) ++
     optEl "NotYetInBusiness" (nibCount g) ++
     optEl "PersonWithDisabilities" (disabilitiesCount g) ++
     optEl "Female" (femaleCount g) ++
     optEl "Male" (maleCount g) ++
     optEl "ActiveDuty" (activeDutyCount g) ++
     optEl "Veterans" (veteransCount g) ++
     optEl "ServiceDisabledVeterans" (sdVeteransCount g) ++
     optEl "MemberOfReserveOrNationalGuard" (reserveGuardCount g) ++
     optEl "SpouseOfMilitaryMember" (spouseCount g) ++
     (if anyRace g then [raceSubtree g] else []) ++
     (if anyEthnicity g then [ethnicitySubtree g] else []))

end ClassData

namespace FixSbaXml

/-- Insertion-order key list of a Python dict keyed by tag: every tag
once, in order of first occurrence. -/
def firstTags : List String → List String
  | [] => []
  | t :: rest => t :: (firstTags rest).filter (fun u => u ≠ t)

/-- `reorder_elements` from `fix-sba-xml.py`, on the child list: collect
children by tag (keeping relative order within a tag), re-append the tags
of `element_order` in that canonical order, then the remaining tags in
first-occurrence order. -/
def reorderChildren (order : List String) (cs : List Elem) : List Elem :=
  let present := firstTags (cs.map Elem.tag)
  let known := order.filter (fun t => t ∈ present)
  let unknown := present.filter (fun t => t ∉ order)
  (known ++ unknown).flatMap (fun t => cs.filter (fun c => c.tag = t))

/-- `reorder_elements` applied to a parent element. -/
def reorder_elements (order : List String) (e : Elem) : Elem :=
  .mk e.tag e.text (reorderChildren order e.children)

/-- The `client_intake_order` list of `fix_client_intake_section`. -/
def client_intake_order : List String :=
  ["Race", "Ethnicity", "Sex", "Disability", "MilitaryStatus",
   "BranchOfService", "Media", "Internet", "CurrentlyInBusiness",
   "CurrentlyExporting", "CompanyName", "BusinessType",
   "BusinessOwnership", "ConductingBusinessOnline",
   "ClientIntake_Certified8a", "Employee_Owned", "TotalNumberOfEmployees",
   "NumberOfEmployeesInExportingBusiness", "ClientAnnualIncomePart2",
   "LegalEntity", "Rural_vs_Urban", "FIPS_Code", "CounselingSeeking",
   "ExportCountries"]

/-- `parent.find(tag)` followed by in-place mutation: transform the first
child with the given tag, leave everything else alone. -/
def applyToFirst (t : String) (f : Elem → Elem) : List Elem → List Elem
  | [] => []
  | c :: rest =>
    if c.tag = t then f c :: rest
    else c :: applyToFirst t f rest

/-- The per-record body of `fix_client_intake_section`: reorder the first
`ClientIntake` child, if any. -/
def fixRecord (r : Elem) : Elem :=
  .mk r.tag r.text
    (applyToFirst "ClientIntake" (reorder_elements client_intake_order) r.children)

/-- The tree transformation of `fix_client_intake_section` (file I/O and
backups aside): every direct `CounselingRecord` child of the root has its
`ClientIntake` section reordered. -/
def fix_client_intake_section (root : Elem) : Elem :=
  .mk root.tag root.text
    (root.children.map (fun c => if c.tag = "CounselingRecord" then fixRecord c else c))

end FixSbaXml

/-! ## Bridging lemmas for the decimal float model -/

namespace PyFloatModel

theorem pow10_pos (k : Nat) : (0 : ℚ) < 10 ^ k := by positivity

theorem zpow_toNat_of_nonneg {e : Int} (h : 0 ≤ e) :
    (10 : ℚ) ^ e = 10 ^ e.toNat := by
  rw [← zpow_natCast]
  congr 1
  omega

theorem zpow_neg_toNat {e : Int} (h : e < 0) :
    (10 : ℚ) ^ e = ((10 : ℚ) ^ (-e).toNat)⁻¹ := by
  rw [← zpow_natCast, ← zpow_neg]
  congr 1
  omega

theorem ltInt_iff (d : PyDec) (n : Int) : d.ltInt n = true ↔ d.toQ < n := by
  unfold PyDec.ltInt PyDec.toQ
  by_cases h : 0 ≤ d.exp
  · simp only [h, if_pos, decide_eq_true_eq, zpow_toNat_of_nonneg h]
    rw [show ((n : ℚ)) = ((n : ℤ) : ℚ) from rfl]
    constructor <;> intro hh <;> exact_mod_cast hh
  · have hneg : d.exp < 0 := by omega
    simp only [h, if_neg, decide_eq_true_eq, zpow_neg_toNat hneg, not_false_iff]
    rw [← div_eq_mul_inv, div_lt_iff₀ (pow10_pos _)]
    constructor <;> intro hh
    · have h2 : ((d.mant : ℚ)) < ((n * 10 ^ (-d.exp).toNat : ℤ) : ℚ) := by exact_mod_cast hh
      calc ((d.mant : ℚ)) < ((n * 10 ^ (-d.exp).toNat : ℤ) : ℚ) := h2
        _ = (n : ℚ) * 10 ^ (-d.exp).toNat := by push_cast; ring
    · have h2 : ((d.mant : ℚ)) < ((n * 10 ^ (-d.exp).toNat : ℤ) : ℚ) := by
        calc ((d.mant : ℚ)) < (n : ℚ) * 10 ^ (-d.exp).toNat := hh
          _ = ((n * 10 ^ (-d.exp).toNat : ℤ) : ℚ) := by push_cast; ring
      exact_mod_cast h2

theorem gtInt_iff (d : PyDec) (n : Int) : d.gtInt n = true ↔ (n : ℚ) < d.toQ := by
  unfold PyDec.gtInt PyDec.toQ
  by_cases h : 0 ≤ d.exp
  · simp only [h, if_pos, decide_eq_true_eq, zpow_toNat_of_nonneg h]
    constructor <;> intro hh
    · have : ((n : ℤ) : ℚ) < ((d.mant * 10 ^ d.exp.toNat : ℤ) : ℚ) := by exact_mod_cast hh
      calc ((n : ℚ)) = ((n : ℤ) : ℚ) := rfl
        _ < ((d.mant * 10 ^ d.exp.toNat : ℤ) : ℚ) := this
        _ = (d.mant : ℚ) * 10 ^ d.exp.toNat := by push_cast; ring
    · have h2 : ((n : ℤ) : ℚ) < ((d.mant * 10 ^ d.exp.toNat : ℤ) : ℚ) := by
        calc ((n : ℤ) : ℚ) = (n : ℚ) := rfl
          _ < (d.mant : ℚ) * 10 ^ d.exp.toNat := hh
          _ = ((d.mant * 10 ^ d.exp.toNat : ℤ) : ℚ) := by push_cast; ring
      exact_mod_cast h2
  · have hneg : d.exp < 0 := by omega
    simp only [h, if_neg, decide_eq_true_eq, zpow_neg_toNat hneg, not_false_iff]
    rw [lt_mul_inv_iff₀ (pow10_pos _)]
    constructor <;> intro hh
    · have : ((n * 10 ^ (-d.exp).toNat : ℤ) : ℚ) < ((d.mant : ℚ)) := by exact_mod_cast hh
      calc (n : ℚ) * 10 ^ (-d.exp).toNat = ((n * 10 ^ (-d.exp).toNat : ℤ) : ℚ) := by
            push_cast; ring
        _ < ((d.mant : ℚ)) := this
    · have h2 : ((n * 10 ^ (-d.exp).toNat : ℤ) : ℚ) < ((d.mant : ℚ)) := by
        calc ((n * 10 ^ (-d.exp).toNat : ℤ) : ℚ) = (n : ℚ) * 10 ^ (-d.exp).toNat := by
              push_cast; ring
          _ < ((d.mant : ℚ)) := hh
      exact_mod_cast h2

end PyFloatModel

namespace DataCleaning

open PyFloatModel

/-- Rational value denoted by the string `clean_percentage` returns
(`str` of a Python int or float is value-faithful). -/
def clampVal : Sum Int PyDec → ℚ
  | Sum.inl n => n
  | Sum.inr d => d.toQ

theorem clampVal_clampPy (d : PyDec) :
    clampVal (clampPy (.finite d)) = max 0 (min 100 d.toQ) := by
  unfold clampPy
  rcases h1 : d.ltInt 100 with _ | _
  · have hge : (100 : ℚ) ≤ d.toQ := by
      by_contra hc
      push_neg at hc
      have h2 := (ltInt_iff d 100).mpr (by exact_mod_cast hc)
      rw [h1] at h2
      exact Bool.false_ne_true h2
    rw [min_eq_left hge]
    simp [h1, clampVal]
  · have hlt : d.toQ < 100 := by exact_mod_cast (ltInt_iff d 100).mp h1
    rcases h2 : d.gtInt 0 with _ | _
    · have hle : d.toQ ≤ 0 := by
        by_contra hc
        push_neg at hc
        have h3 := (gtInt_iff d 0).mpr (by exact_mod_cast hc)
        rw [h2] at h3
        exact Bool.false_ne_true h3
      rw [min_eq_right hlt.le, max_eq_left hle]
      simp [h1, h2, clampVal]
    · have hgt : (0 : ℚ) < d.toQ := by exact_mod_cast (gtInt_iff d 0).mp h2
      rw [min_eq_right hlt.le, max_eq_right hgt.le]
      simp [h1, h2, clampVal]

end DataCleaning

/-! ## Claim C3: the percentage cleaner -/

namespace DataCleaning

open PyFloatModel

/-- Claim C3: for every input string that parses as a number, the value
`clean_percentage` returns is that number clamped into `[0, 100]`; for
every non-empty, non-blank, non-`"nan"` input that does not parse as a
number it raises (`Except.error`), and it does not raise for
absent/blank input (returning `"0"`). -/
theorem clean_percentage_contract (s : String) :
    (∀ d : PyDec, PyStr.isBlankNan (some s) = false →
        pyParseFloat s = some (.finite d) →
        clean_percentage (some s) = Except.ok (renderClamp (clampPy (.finite d))) ∧
          clampVal (clampPy (.finite d)) = max 0 (min 100 d.toQ) ∧
          0 ≤ clampVal (clampPy (.finite d)) ∧ clampVal (clampPy (.finite d)) ≤ 100) ∧
    (PyStr.isBlankNan (some s) = false → pyParseFloat s = none →
        clean_percentage (some s) = Except.error ("Invalid percentage value: " ++ s)) ∧
    (PyStr.isBlankNan (some s) = true → clean_percentage (some s) = Except.ok "0") ∧
    clean_percentage none = Except.ok "0" := by
  refine ⟨?_, ?_, ?_, ?_⟩
  · intro d hb hp
    refine ⟨by simp [clean_percentage, hb, hp], clampVal_clampPy d, ?_, ?_⟩
    · rw [clampVal_clampPy d]
      exact le_max_left _ _
    · rw [clampVal_clampPy d]
      exact max_le (by norm_num) (min_le_left _ _)
  · intro hb hp
    simp [clean_percentage, hb, hp]
  · intro hb
    simp [clean_percentage, hb]
  · rfl

/-- Witness for C3: the input `"150"` parses as the number 150 and is
clamped to 100. -/
theorem clean_percentage_contract_witness :
    (PyStr.isBlankNan (some "150") = false ∧
      pyParseFloat "150" = some (.finite ⟨150, 0⟩)) ∧
    clean_percentage (some "150") = Except.ok (renderClamp (clampPy (.finite ⟨150, 0⟩))) ∧
    clampVal (clampPy (.finite ⟨150, 0⟩)) = max 0 (min 100 (PyDec.toQ ⟨150, 0⟩)) ∧
    0 ≤ clampVal (clampPy (.finite ⟨150, 0⟩)) ∧
    clampVal (clampPy (.finite ⟨150, 0⟩)) ≤ 100 :=
  ⟨⟨by rfl, by rfl⟩, (clean_percentage_contract "150").1 ⟨150, 0⟩ (by rfl) (by rfl)⟩

end DataCleaning


namespace PyStr

theorem rfindI_lt_length (c : Char) (l : List Char) : rfindI c l < (l.length : Int) := by
  induction l with
  | nil => simp [rfindI]
  | cons a rest ih =>
    simp only [rfindI, List.length_cons]
    split
    · push_cast; omega
    · split <;> push_cast <;> omega

theorem foldl_max_rfind_lt (bs : List Char) (t : List Char) (init : Int)
    (hinit : init < (t.length : Int)) :
    bs.foldl (fun best b => max best (rfindI b t)) init < (t.length : Int) := by
  induction bs generalizing init with
  | nil => exact hinit
  | cons b rest ih =>
    simp only [List.foldl_cons]
    exact ih _ (max_lt hinit (rfindI_lt_length b t))

end PyStr

namespace DataCleaning

open PyStr

theorem truncate_fix (t : String) (n : Nat) (hc : clean_whitespace (some t) = t)
    (hl : t.data.length ≤ n) : truncate_counselor_notes (some t) n = t := by
  unfold truncate_counselor_notes
  rw [hc]
  have hl2 : t.length ≤ n := hl
  simp [hl2]

theorem truncate_len_le (s : Option String) (n : Nat) :
    (truncate_counselor_notes s n).data.length ≤ n := by
  unfold truncate_counselor_notes
  dsimp only
  split_ifs with h1 h2 h3
  · exact h1
  · have hbd := foldl_max_rfind_lt [('.' : Char), '!', '?', '\n']
      ((clean_whitespace s).data.take n) (-1) (by omega)
    have htl : ((clean_whitespace s).data.take n).length = n := by
      rw [List.length_take]
      omega
    rw [htl] at hbd
    simp only [List.length_take] at h2 ⊢
    omega
  · have hsp := rfindI_lt_length ' ' ((clean_whitespace s).data.take n)
    have htl : ((clean_whitespace s).data.take n).length = n := by
      rw [List.length_take]
      omega
    rw [htl] at hsp
    simp only [List.length_take] at h3 ⊢
    omega
  · simp only [List.length_take]
    omega

end DataCleaning

namespace DataCleaning

open PyStr

/-- Claim C6, as amended: the result of `truncate_counselor_notes` never
exceeds the limit (the limit being a length, a natural number), and
re-truncating is the identity whenever the first result is a fixpoint of
the whitespace cleanup. Unconditional idempotence is refuted by
`truncate_idem_cex`: the cleanup itself is not idempotent, because
artifact removal can manufacture double spaces (and a sentence-boundary
cut can leave a trailing newline), which a second cleanup collapses. -/
theorem truncate_contract (s : Option String) (n : Nat) :
    (truncate_counselor_notes s n).data.length ≤ n ∧
    (clean_whitespace (some (truncate_counselor_notes s n)) = truncate_counselor_notes s n →
      truncate_counselor_notes (some (truncate_counselor_notes s n)) n =
        truncate_counselor_notes s n) :=
  ⟨truncate_len_le s n, fun hc => truncate_fix _ n hc (truncate_len_le s n)⟩

/-- Counterexample to Claim C6 as stated: truncation is not idempotent.
`"a [x]: b"` cleans to `"a  b"` (removing `[x]:` leaves a double space),
which the second pass collapses to `"a b"`. -/
theorem truncate_idem_cex :
    truncate_counselor_notes (some (truncate_counselor_notes (some "a [x]: b") 100)) 100 ≠
      truncate_counselor_notes (some "a [x]: b") 100 := by decide

/-- Witness for C6 at `"hello world"` with limit 5: the first result
`"hello"` is whitespace-clean, so re-truncation is the identity there. -/
theorem truncate_contract_witness :
    (clean_whitespace (some (truncate_counselor_notes (some "hello world") 5)) =
      truncate_counselor_notes (some "hello world") 5) ∧
    (truncate_counselor_notes (some "hello world") 5).data.length ≤ 5 ∧
    truncate_counselor_notes (some (truncate_counselor_notes (some "hello world") 5)) 5 =
      truncate_counselor_notes (some "hello world") 5 :=
  ⟨by decide, (truncate_contract (some "hello world") 5).1,
    (truncate_contract (some "hello world") 5).2 (by decide)⟩

end DataCleaning

/-! ## Claims C9 and C5: training demographics -/

namespace ClassData

open PyStr

/-- Claim C9: the Male bucket counts every row whose gender value
contains, case-insensitively, one of the substrings `male`, `m`, `man`,
`men` (this is the definition of `maleCount`); since `"female"` contains
both `"male"` and `"m"` and also matches the Female patterns, a group in
which every row's gender is `"Female"` has Male count = Female count =
group size. -/
theorem male_overcount (g : TGroup) (hcol : g.hasGenderCol = true)
    (hall : ∀ r ∈ g.rows, fillna r.gender = "Female") :
    maleCount g = g.rows.length ∧ femaleCount g = g.rows.length := by
  constructor
  · unfold maleCount countMatch
    rw [hcol, if_pos rfl]
    rw [List.filter_eq_self.mpr (fun r hr => by rw [hall r hr]; decide)]
  · unfold femaleCount countMatch
    rw [hcol, if_pos rfl]
    rw [List.filter_eq_self.mpr (fun r hr => by rw [hall r hr]; decide)]

/-- Witness for C9: a three-attendee group, all `"Female"`, is counted
as 3 Male and 3 Female. -/
theorem male_overcount_witness :
    ((⟨[⟨none, some "Female", none, none, none, none⟩,
        ⟨none, some "Female", none, none, none, none⟩,
        ⟨none, some "Female", none, none, none, none⟩],
       false, true, false, false, true, false⟩ : TGroup).hasGenderCol = true) ∧
    maleCount ⟨[⟨none, some "Female", none, none, none, none⟩,
        ⟨none, some "Female", none, none, none, none⟩,
        ⟨none, some "Female", none, none, none, none⟩],
       false, true, false, false, true, false⟩ =
      (⟨[⟨none, some "Female", none, none, none, none⟩,
        ⟨none, some "Female", none, none, none, none⟩,
        ⟨none, some "Female", none, none, none, none⟩],
       false, true, false, false, true, false⟩ : TGroup).rows.length ∧
    femaleCount ⟨[⟨none, some "Female", none, none, none, none⟩,
        ⟨none, some "Female", none, none, none, none⟩,
        ⟨none, some "Female", none, none, none, none⟩],
       false, true, false, false, true, false⟩ =
      (⟨[⟨none, some "Female", none, none, none, none⟩,
        ⟨none, some "Female", none, none, none, none⟩,
        ⟨none, some "Female", none, none, none, none⟩],
       false, true, false, false, true, false⟩ : TGroup).rows.length := by
  refine ⟨rfl, ?_⟩
  have h := male_overcount
    ⟨[⟨none, some "Female", none, none, none, none⟩,
      ⟨none, some "Female", none, none, none, none⟩,
      ⟨none, some "Female", none, none, none, none⟩],
     false, true, false, false, true, false⟩ rfl
    (by intro r hr; fin_cases hr <;> rfl)
  exact h

theorem any_optEl (tag t : String) (n : Nat) :
    (optEl tag n).any (fun c => c.tag = t) = (decide (tag = t) && decide (0 < n)) := by
  unfold optEl
  split_ifs with h
  · simp [el, Elem.tag, h]
  · simp [Nat.le_zero.mp (Nat.not_lt.mp h)]

end ClassData

namespace ClassData

theorem any_ifBlock (c : Bool) (e : Elem) (t : String) :
    (if c = true then [e] else []).any (fun x => x.tag = t) =
      (c && decide (e.tag = t)) := by
  cases c <;> simp

/-- Claim C5: for every (nonempty) training group, `NumberTrained/Total`
is `max(group size, 2)`, and each demographic bucket element — the
business, disability, gender and military buckets, the `Race` and
`Ethnicity` subtrees, and every race/ethnicity sub-bucket — is emitted
exactly when its computed count is positive. -/
theorem numberTrained_contract (g : TGroup) (h : g.rows ≠ []) :
    (buildNumberTrained g).childText "Total" = some (toString (max g.rows.length 2)) ∧
    ((buildNumberTrained g).hasChild "CurrentlyInBusiness" = true ↔ 0 < cibCount g) ∧
    ((buildNumberTrained g).hasChild "NotYetInBusiness" = true ↔ 0 < nibCount g) ∧
    ((buildNumberTrained g).hasChild "PersonWithDisabilities" = true ↔ 0 < disabilitiesCount g) ∧
    ((buildNumberTrained g).hasChild "Female" = true ↔ 0 < femaleCount g) ∧
    ((buildNumberTrained g).hasChild "Male" = true ↔ 0 < maleCount g) ∧
    ((buildNumberTrained g).hasChild "ActiveDuty" = true ↔ 0 < activeDutyCount g) ∧
    ((buildNumberTrained g).hasChild "Veterans" = true ↔ 0 < veteransCount g) ∧
    ((buildNumberTrained g).hasChild "ServiceDisabledVeterans" = true ↔ 0 < sdVeteransCount g) ∧
    ((buildNumberTrained g).hasChild "MemberOfReserveOrNationalGuard" = true ↔
      0 < reserveGuardCount g) ∧
    ((buildNumberTrained g).hasChild "SpouseOfMilitaryMember" = true ↔ 0 < spouseCount g) ∧
    ((buildNumberTrained g).hasChild "Race" = true ↔ anyRace g = true) ∧
    ((buildNumberTrained g).hasChild "Ethnicity" = true ↔ anyEthnicity g = true) ∧
    ((raceSubtree g).hasChild "Asian" = true ↔ 0 < asianCount g) ∧
    ((raceSubtree g).hasChild "BlackOrAfricanAmerican" = true ↔ 0 < blackCount g) ∧
    ((raceSubtree g).hasChild "NativeAmericanOrAlaskaNative" = true ↔ 0 < nativeAmericanCount g) ∧
    ((raceSubtree g).hasChild "NativeHawaiianOrPacificIslander" = true ↔
      0 < pacificIslanderCount g) ∧
    ((raceSubtree g).hasChild "White" = true ↔ 0 < whiteCount g) ∧
    ((raceSubtree g).hasChild "MiddleEastern" = true ↔ 0 < middleEasternCount g) ∧
    ((raceSubtree g).hasChild "NorthAfrican" = true ↔ 0 < northAfricanCount g) ∧
    ((ethnicitySubtree g).hasChild "HispanicOrLatinoOrigin" = true ↔ 0 < hispanicCount g) ∧
    ((ethnicitySubtree g).hasChild "NonHispanicOrLatinoOrigin" = true ↔
      0 < nonHispanicCount g) := by
  refine ⟨?_, ?_, ?_, ?_, ?_, ?_, ?_, ?_, ?_, ?_, ?_, ?_, ?_, ?_, ?_, ?_, ?_, ?_, ?_, ?_, ?_, ?_⟩
  case refine_1 =>
    simp [buildNumberTrained, totalTrained, Elem.childText, elC, el, Elem.tag,
      Elem.text, List.find?]
  all_goals
    simp only [buildNumberTrained, raceSubtree, ethnicitySubtree, elC, el, Elem.hasChild,
      Elem.children, List.singleton_append, List.any_cons, List.any_append, any_optEl,
      any_ifBlock, List.any_nil]
    simp [Elem.tag]

end ClassData

namespace ClassData

/-- A training group of three attendees, none of whom has any demographic
value (in particular no Race value). -/
def groupNoRace : TGroup :=
  ⟨[⟨none, none, none, none, none, none⟩, ⟨none, none, none, none, none, none⟩,
    ⟨none, none, none, none, none, none⟩], true, true, true, true, true, true⟩

/-- Witness for C5, the race-defaulting scenario: three attendees, no
Race values, give `NumberTrained/Total = 3` and no `Race` subtree. -/
theorem numberTrained_contract_witness :
    groupNoRace.rows ≠ [] ∧
    (buildNumberTrained groupNoRace).childText "Total" =
      some (toString (max groupNoRace.rows.length 2)) ∧
    toString (max groupNoRace.rows.length 2) = "3" ∧
    (buildNumberTrained groupNoRace).hasChild "Race" = false := by
  have h := numberTrained_contract groupNoRace (by simp [groupNoRace])
  refine ⟨by simp [groupNoRace], h.1, by rfl, ?_⟩
  have hr := h.2.2.2.2.2.2.2.2.2.2.2.1
  cases hcr : (buildNumberTrained groupNoRace).hasChild "Race"
  · rfl
  · have h2 := hr.mp hcr
    rw [show anyRace groupNoRace = false from rfl] at h2
    exact absurd h2 (by simp)

end ClassData

/-! ## Claim C10: the training date formatter -/

namespace PyDate

theorem firstParse_eq_none (fmts : List DateFmt) (l : List Char)
    (h : ∀ f ∈ fmts, pyStrptimeL f l = none) : firstParse fmts l = none := by
  induction fmts with
  | nil => rfl
  | cons f rest ih =>
    unfold firstParse
    rw [h f (List.mem_cons_self f rest)]
    exact ih (fun f2 h2 => h f2 (List.mem_cons_of_mem f h2))

theorem firstParse_some_mem {fmts : List DateFmt} {l : List Char} {d : MyDate}
    (h : firstParse fmts l = some d) : ∃ f ∈ fmts, pyStrptimeL f l = some d := by
  induction fmts with
  | nil => exact absurd h (by simp [firstParse])
  | cons f rest ih =>
    unfold firstParse at h
    rcases h2 : pyStrptimeL f l with _ | d2
    · rw [h2] at h
      obtain ⟨f2, hf2, hp⟩ := ih h
      exact ⟨f2, List.mem_cons_of_mem f hf2, hp⟩
    · rw [h2] at h
      exact ⟨f, List.mem_cons_self f rest, by rw [h2, ← h]⟩

theorem pyStrptimeL_dateOk {f : DateFmt} {l : List Char} {d : MyDate}
    (h : pyStrptimeL f l = some d) : dateOk d = true := by
  unfold pyStrptimeL at h
  repeat' split at h
  all_goals simp_all

theorem isoDate_ne_empty (d : MyDate) : isoDate d ≠ "" := by
  simp only [isoDate, ne_eq]
  intro hc
  have h2 : PyStr.natDigits d.year ++ '-' :: (PyStr.pad2 d.month ++ '-' :: PyStr.pad2 d.day)
      = ([] : List Char) := by
    exact congrArg String.data hc
  simp at h2

end PyDate

namespace ClassData

open PyDate

/-- Claim C10: the training converter's date formatter never returns an
empty value; an absent/NaN cell or one matching none of its five
patterns yields the fixed literal `"2023-12-12"`, and every emitted
`DateTrainingStarted` text is either that literal or the ISO form of a
valid calendar date. -/
theorem trainingDate_contract (cell : Option String) :
    format_date cell ≠ "" ∧
    (buildDateTrainingStarted cell).text ≠ "" ∧
    (format_date cell = "2023-12-12" ∨
      ∃ d : MyDate, dateOk d = true ∧ format_date cell = isoDate d) ∧
    ((∀ f ∈ trainingFormats, pyStrptimeL f ((cell.getD "").data) = none) →
      format_date cell = "2023-12-12") := by
  have hshape : format_date cell = "2023-12-12" ∨
      ∃ d : MyDate, dateOk d = true ∧ format_date cell = isoDate d := by
    unfold format_date
    rcases cell with _ | s
    · exact Or.inl rfl
    · by_cases he : s.data.isEmpty
      · simp [he]
      · simp only [he, if_false, Bool.false_eq_true]
        rcases hp : firstParse trainingFormats s.data with _ | d
        · exact Or.inl rfl
        · refine Or.inr ⟨d, ?_, rfl⟩
          obtain ⟨f, _, hf⟩ := firstParse_some_mem hp
          exact pyStrptimeL_dateOk hf
  have hne : format_date cell ≠ "" := by
    rcases hshape with h | ⟨d, _, h⟩
    · rw [h]; decide
    · rw [h]; exact isoDate_ne_empty d
  refine ⟨hne, hne, hshape, ?_⟩
  intro hall
  unfold format_date
  rcases cell with _ | s
  · rfl
  · by_cases he : s.data.isEmpty
    · simp [he]
    · simp only [he, if_false, Bool.false_eq_true]
      rw [firstParse_eq_none trainingFormats s.data (by simpa using hall)]

/-- Witness for C10: an unparsable cell yields exactly the default
literal, and it is not empty. -/
theorem trainingDate_contract_witness :
    (∀ f ∈ trainingFormats, pyStrptimeL f (((some "05/32/2023").getD "").data) = none) ∧
    format_date (some "05/32/2023") = "2023-12-12" ∧
    format_date (some "05/32/2023") ≠ "" :=
  ⟨by decide, (trainingDate_contract (some "05/32/2023")).2.2.2 (by decide),
    (trainingDate_contract (some "05/32/2023")).1⟩

end ClassData

/-! ## Claim C7: idempotence of the post-hoc fixer -/

namespace FixSbaXml

theorem firstTags_cons (a : String) (l : List String) :
    firstTags (a :: l) = a :: (firstTags l).filter (fun u => u ≠ a) := rfl

theorem mem_firstTags {t : String} : ∀ {l : List String}, t ∈ firstTags l ↔ t ∈ l := by
  intro l
  induction l with
  | nil => simp [firstTags]
  | cons a rest ih =>
    simp only [firstTags, List.mem_cons, List.mem_filter]
    constructor
    · rintro (rfl | ⟨h1, _⟩)
      · exact Or.inl rfl
      · exact Or.inr (ih.mp h1)
    · rintro (rfl | h)
      · exact Or.inl rfl
      · by_cases he : t = a
        · exact Or.inl he
        · exact Or.inr ⟨ih.mpr h, by simpa using he⟩

theorem firstTags_nodup : ∀ (l : List String), (firstTags l).Nodup := by
  intro l
  induction l with
  | nil => simp [firstTags]
  | cons a rest ih =>
    simp only [firstTags]
    refine List.nodup_cons.mpr ⟨?_, ih.filter _⟩
    intro hmem
    have h2 := List.mem_filter.mp hmem
    simp at h2

theorem flatMap_congr_mem {α β : Type} {l : List α} {f g : α → List β}
    (h : ∀ a ∈ l, f a = g a) : l.flatMap f = l.flatMap g := by
  induction l with
  | nil => rfl
  | cons a rest ih =>
    simp only [List.flatMap_cons]
    rw [h a (List.mem_cons_self a rest), ih (fun x hx => h x (List.mem_cons_of_mem a hx))]

theorem filter_flatMap_blocks {ts : List String} (hnd : ts.Nodup)
    (g : String → List Elem) (hg : ∀ t, ∀ x ∈ g t, x.tag = t) (u : String) :
    ((ts.flatMap g).filter (fun c => c.tag = u)) = if u ∈ ts then g u else [] := by
  induction ts with
  | nil => simp
  | cons t rest ih =>
    have hnd2 := (List.nodup_cons.mp hnd).2
    have hni := (List.nodup_cons.mp hnd).1
    simp only [List.flatMap_cons, List.filter_append, ih hnd2]
    by_cases hu : u = t
    · subst hu
      have h1 : (g u).filter (fun c => c.tag = u) = g u :=
        List.filter_eq_self.mpr (fun x hx => by simp [hg u x hx])
      simp [h1, hni]
    · have h1 : (g t).filter (fun c => c.tag = u) = [] := by
        rw [List.filter_eq_nil_iff]
        intro x hx
        rw [hg t x hx]
        simp only [decide_eq_true_eq]
        exact fun h => hu h.symm
      have h2 : (u ∈ t :: rest) = (u ∈ rest) := by
        simp [List.mem_cons, hu]
      simp [h1, h2]

theorem firstTags_append_block {t : String} {l1 l2 : List String}
    (hne : l1 ≠ []) (hall : ∀ x ∈ l1, x = t) :
    firstTags (l1 ++ l2) = t :: (firstTags l2).filter (fun u => u ≠ t) := by
  induction l1 with
  | nil => exact absurd rfl hne
  | cons a l1x ih =>
    have ha : a = t := hall a (List.mem_cons_self a l1x)
    subst ha
    rcases l1x with _ | ⟨b, l1y⟩
    · simp [firstTags]
    · have hall2 : ∀ x ∈ b :: l1y, x = a := fun x hx => hall x (List.mem_cons_of_mem _ hx)
      have hih := ih (by simp) hall2
      rw [List.cons_append, firstTags_cons, hih]
      congr 1
      rw [List.filter_cons]
      simp [List.filter_filter]

theorem firstTags_flatMap {ts : List String} (hnd : ts.Nodup) (g : String → List Elem)
    (hg : ∀ t, ∀ x ∈ g t, x.tag = t) (hne : ∀ t ∈ ts, g t ≠ []) :
    firstTags ((ts.flatMap g).map Elem.tag) = ts := by
  induction ts with
  | nil => simp [firstTags]
  | cons t rest ih =>
    have hnd2 := (List.nodup_cons.mp hnd).2
    have hni := (List.nodup_cons.mp hnd).1
    simp only [List.flatMap_cons, List.map_append]
    rw [firstTags_append_block
      (by simpa using hne t (List.mem_cons_self t rest))
      (by intro x hx
          obtain ⟨c, hc, rfl⟩ := List.mem_map.mp hx
          exact hg t c hc)]
    rw [ih hnd2 (fun u hu => hne u (List.mem_cons_of_mem t hu))]
    congr 1
    exact List.filter_eq_self.mpr (fun x hx => by
      simp only [ne_eq, decide_eq_true_eq]
      intro hxt
      exact hni (hxt ▸ hx))

/-- Core of Claim C7: one reordering pass is a fixpoint of a second. -/
theorem reorderChildren_idem (order : List String) (hnd : order.Nodup) (cs : List Elem) :
    reorderChildren order (reorderChildren order cs) = reorderChildren order cs := by
  unfold reorderChildren
  dsimp only
  set present := firstTags (cs.map Elem.tag) with hpresent
  set known := order.filter (fun t => t ∈ present) with hknown
  set unknown := present.filter (fun t => t ∉ order) with hunknown
  set g : String → List Elem := fun t => cs.filter (fun c => c.tag = t) with hgdef
  have hgtag : ∀ t, ∀ x ∈ g t, x.tag = t := by
    intro t x hx
    have h2 := List.mem_filter.mp hx
    simpa using h2.2
  have hknownsub : ∀ x ∈ known, x ∈ present ∧ x ∈ order := by
    intro x hx
    have h2 := List.mem_filter.mp hx
    exact ⟨by simpa using h2.2, h2.1⟩
  have hunknownsub : ∀ x ∈ unknown, x ∈ present ∧ x ∉ order := by
    intro x hx
    have h2 := List.mem_filter.mp hx
    exact ⟨h2.1, by simpa using h2.2⟩
  have htsnd : (known ++ unknown).Nodup := by
    refine List.Nodup.append (hnd.filter _) ((firstTags_nodup _).filter _) ?_
    intro a ha hb
    exact (hunknownsub a hb).2 (hknownsub a ha).2
  have hne : ∀ t ∈ known ++ unknown, g t ≠ [] := by
    intro t ht
    have hpres : t ∈ present := by
      rcases List.mem_append.mp ht with h | h
      · exact (hknownsub t h).1
      · exact (hunknownsub t h).1
    have hmem : t ∈ cs.map Elem.tag := mem_firstTags.mp hpres
    obtain ⟨c, hc, rfl⟩ := List.mem_map.mp hmem
    intro hnil
    have : c ∈ g c.tag := List.mem_filter.mpr ⟨hc, by simp⟩
    rw [hnil] at this
    exact (List.not_mem_nil c) this
  have hpresent2 : firstTags (((known ++ unknown).flatMap g).map Elem.tag)
      = known ++ unknown := firstTags_flatMap htsnd g hgtag hne
  rw [hpresent2]
  have hknown2 : order.filter (fun t => t ∈ known ++ unknown) = known := by
    rw [hknown]
    apply List.filter_congr
    intro x hx
    simp only [decide_eq_decide, List.mem_append]
    constructor
    · rintro (h | h)
      · exact (hknownsub x h).1
      · exact (hunknownsub x h).1
    · intro h
      exact Or.inl (List.mem_filter.mpr ⟨hx, by simpa using h⟩)
  have hunknown2 : (known ++ unknown).filter (fun t => t ∉ order) = unknown := by
    rw [List.filter_append]
    have h1 : known.filter (fun t => t ∉ order) = [] := by
      rw [List.filter_eq_nil_iff]
      intro x hx
      simp [(hknownsub x hx).2]
    have h2 : unknown.filter (fun t => t ∉ order) = unknown :=
      List.filter_eq_self.mpr (fun x hx => by simp [(hunknownsub x hx).2])
    rw [h1, h2, List.nil_append]
  rw [hknown2, hunknown2]
  apply flatMap_congr_mem
  intro t ht
  rw [filter_flatMap_blocks htsnd g hgtag t, if_pos ht]

/-- `reorder_elements` keeps the parent's tag. -/
theorem reorder_elements_tag (order : List String) (e : Elem) :
    (reorder_elements order e).tag = e.tag := rfl

theorem reorder_elements_idem (order : List String) (hnd : order.Nodup) (e : Elem) :
    reorder_elements order (reorder_elements order e) = reorder_elements order e := by
  rcases e with ⟨t, x, cs⟩
  unfold reorder_elements
  simp only [Elem.tag, Elem.text, Elem.children]
  rw [reorderChildren_idem order hnd cs]

theorem applyToFirst_cons_pos {t : String} {f : Elem → Elem} {c : Elem} {rest : List Elem}
    (hc : c.tag = t) : applyToFirst t f (c :: rest) = f c :: rest := by
  unfold applyToFirst
  rw [if_pos hc]

theorem applyToFirst_cons_neg {t : String} {f : Elem → Elem} {c : Elem} {rest : List Elem}
    (hc : ¬ c.tag = t) : applyToFirst t f (c :: rest) = c :: applyToFirst t f rest := by
  unfold applyToFirst
  rw [if_neg hc]
  congr 1
  cases rest <;> rfl

theorem applyToFirst_idem (t : String) (f : Elem → Elem)
    (htag : ∀ e, (f e).tag = e.tag) (hidem : ∀ e, f (f e) = f e) (cs : List Elem) :
    applyToFirst t f (applyToFirst t f cs) = applyToFirst t f cs := by
  induction cs with
  | nil => rfl
  | cons c rest ih =>
    by_cases hc : c.tag = t
    · rw [applyToFirst_cons_pos hc, applyToFirst_cons_pos (by rw [htag c]; exact hc),
        hidem c]
    · rw [applyToFirst_cons_neg hc, applyToFirst_cons_neg hc, ih]

theorem fixRecord_tag (r : Elem) : (fixRecord r).tag = r.tag := rfl

theorem fixRecord_idem (r : Elem) : fixRecord (fixRecord r) = fixRecord r := by
  unfold fixRecord
  simp only [Elem.tag, Elem.text, Elem.children]
  rw [applyToFirst_idem "ClientIntake" (reorder_elements client_intake_order)
    (reorder_elements_tag client_intake_order)
    (reorder_elements_idem client_intake_order (by decide))]

/-- Claim C7: the Post-hoc XML Fixer's ClientIntake reordering is
idempotent — running `fix_client_intake_section` twice on any parsed
document yields the same tree as running it once. -/
theorem fixer_idempotent (root : Elem) :
    fix_client_intake_section (fix_client_intake_section root) =
      fix_client_intake_section root := by
  rcases root with ⟨t, x, cs⟩
  show Elem.mk t x
      ((cs.map (fun c => if c.tag = "CounselingRecord" then fixRecord c else c)).map
        (fun c => if c.tag = "CounselingRecord" then fixRecord c else c)) =
    Elem.mk t x (cs.map (fun c => if c.tag = "CounselingRecord" then fixRecord c else c))
  congr 1
  rw [List.map_map]
  apply List.map_congr_left
  intro c hc
  simp only [Function.comp_apply]
  by_cases h : c.tag = "CounselingRecord"
  · rw [if_pos h, if_pos (by rw [fixRecord_tag]; exact h), fixRecord_idem]
  · rw [if_neg h, if_neg h]

end FixSbaXml

/-! ## Claims C1, C2, C8: the counseling run, the ZIP builder, partial subtrees -/

namespace CsvToXml

/-- Claim C1 is refuted by this evaluation: `validate_record` is not
exception-free. A row whose `Duration (hours)` cell is non-empty and
non-numeric (with a session type outside the no-contact-hours set, e.g.
the default `Telephone`) reaches `float(contact_hours or 0)`, which
raises `ValueError`; the call sits outside the per-record `try` block of
`create_xml_from_csv`, so the whole run aborts instead of skipping the
record. -/
theorem validate_record_raises :
    DataValidation.validate_record
        [("Contact ID", "C2"), ("Duration (hours)", "abc")] 1 "C2" =
      Except.error "could not convert string to float: \x27abc\x27" ∧
    create_xml_from_csv [[("Contact ID", "C2"), ("Duration (hours)", "abc")]] =
      Except.error "could not convert string to float: \x27abc\x27" :=
  ⟨rfl, rfl⟩

/-- Claim C2 is refuted on `csv_to_xml.py` and holds on
`counseling_converter.py`: for `Mailing Zip/Postal Code = "ABC"` (non-blank,
no leading five-digit run), the `csv_to_xml.py` builder raises
`AttributeError`, emits no ZipCode element and logs no
warning/invalid_format Issue (the warning line below the raise is dead),
while the converter variant — whose ternary tests the match object itself
— logs exactly one warning/invalid_format Issue and emits `ZipCode` with
empty text. -/
theorem zip_builder_divergence :
    (build_client_request_section [("Mailing Zip/Postal Code", "ABC")] "R1").err =
      some "AttributeError: \x27NoneType\x27 object has no attribute \x27group\x27" ∧
    (build_client_request_section [("Mailing Zip/Postal Code", "ABC")] "R1").issues = [] ∧
    (((build_client_request_section [("Mailing Zip/Postal Code", "ABC")] "R1").elem.children.find?
        (fun c => c.tag = "AddressPart1")).map (fun a => a.hasChild "ZipCode")) = some false ∧
    (Converters.build_client_request_section [("Mailing Zip/Postal Code", "ABC")] "R1").2 =
      [⟨"R1", "warning", VC.INVALID_FORMAT, "Mailing Zip/Postal Code",
        "Could not parse 5-digit ZIP from \x27ABC\x27."⟩] ∧
    (((Converters.build_client_request_section [("Mailing Zip/Postal Code", "ABC")] "R1").1.children.find?
        (fun c => c.tag = "AddressPart1")).map (fun a => a.childText "ZipCode")) =
      some (some "") :=
  ⟨rfl, rfl, rfl, rfl, rfl⟩

theorem runRows_cons (idx : Nat) (x : Row) (rest : List Row) (st : RunState) :
    runRows idx (x :: rest) st =
      match processRow st idx x with
      | Except.error e => Except.error e
      | Except.ok st2 => runRows (idx + 1) rest st2 := rfl

theorem runRows_append (idx : Nat) (xs ys : List Row) (st : RunState) :
    runRows idx (xs ++ ys) st =
      match runRows idx xs st with
      | Except.error e => Except.error e
      | Except.ok st2 => runRows (idx + xs.length) ys st2 := by
  induction xs generalizing idx st with
  | nil => simp [runRows]
  | cons x rest ih =>
    rw [List.cons_append, runRows_cons, runRows_cons]
    rcases hp : processRow st idx x with e | st2
    · rfl
    · show runRows (idx + 1) (rest ++ ys) st2 =
        match runRows (idx + 1) rest st2 with
        | Except.error e => Except.error e
        | Except.ok st3 => runRows (idx + (x :: rest).length) ys st3
      rw [ih (idx + 1) st2]
      have hlen : idx + (x :: rest).length = idx + 1 + rest.length := by
        simp only [List.length_cons]
        omega
      rw [hlen]

/-- Claim C8: when a section builder raises partway through a record, the
partially built `CounselingRecord` element (with every child attached
before the exception) stays on the document root, the record is counted
as failed, a `processing_error` Issue is logged, and the loop continues
with the remaining rows from that state. -/
theorem partial_subtree_retained (pre : List Row) (row : Row) (st : RunState)
    (vIss : List Issue) (e : String)
    (hpre : create_xml_from_csv pre = Except.ok st)
    (hval : DataValidation.validate_record row (pre.length + 1)
        (rowGet row "Contact ID" ("Row_" ++ toString (pre.length + 1))) =
      Except.ok (true, vIss))
    (herr : (buildCounselingRecord row
        (rowGet row "Contact ID" ("Row_" ++ toString (pre.length + 1)))).err = some e) :
    ∀ post : List Row,
      create_xml_from_csv (pre ++ row :: post) =
        runRows (pre.length + 2) post
          { st with
            children := st.children ++
              [(buildCounselingRecord row
                  (rowGet row "Contact ID" ("Row_" ++ toString (pre.length + 1)))).elem],
            failed := st.failed + 1,
            issues := st.issues ++ vIss ++
              (buildCounselingRecord row
                (rowGet row "Contact ID" ("Row_" ++ toString (pre.length + 1)))).issues ++
              [⟨rowGet row "Contact ID" ("Row_" ++ toString (pre.length + 1)),
                "error", VC.PROCESSING_ERROR, "record",
                "Error processing record: " ++ e⟩] } := by
  intro post
  unfold create_xml_from_csv at hpre ⊢
  rw [runRows_append 1 pre (row :: post) _, hpre]
  show runRows (1 + pre.length) (row :: post) st = _
  rw [Nat.add_comm 1 pre.length, runRows_cons]
  unfold processRow
  dsimp only
  rw [hval]
  dsimp only
  rw [herr]
  rfl

/-- The row that triggers the partial-subtree scenario: its ZIP has no
leading five-digit run, so `build_client_request_section` raises after
attaching the name, email, phone and the first four address children. -/
def cRow : Row :=
  [("Contact ID", "C1"), ("Mailing Zip/Postal Code", "ABC"),
   ("Race", "Asian"), ("Duration (hours)", "1")]

/-- The validation issues `validate_record` logs for `cRow`. -/
def cIss : List Issue :=
  [⟨"C1", "warning", VC.MISSING_FIELD, "Last Name", "Missing Last Name"⟩,
   ⟨"C1", "warning", VC.MISSING_FIELD, "First Name", "Missing First Name"⟩,
   ⟨"C1", "warning", VC.INVALID_FORMAT, "ZipCode", "Non-numeric ZIP code: ABC"⟩,
   ⟨"C1", "info", VC.STANDARDIZED_VALUE, "Country",
     "Standardized country: \x27US\x27 -> \x27United States\x27"⟩]

def cErr : String := "AttributeError: \x27NoneType\x27 object has no attribute \x27group\x27"

/-- Witness for C8 at `cRow`: the single-row run keeps the partial
record on the root, counts one failure and logs the processing error. -/
theorem partial_subtree_retained_witness :
    (create_xml_from_csv ([] : List Row) = Except.ok ⟨[], 0, 0, 0, []⟩) ∧
    (DataValidation.validate_record cRow (List.length ([] : List Row) + 1)
        (rowGet cRow "Contact ID" ("Row_" ++ toString (List.length ([] : List Row) + 1))) =
      Except.ok (true, cIss)) ∧
    ((buildCounselingRecord cRow
        (rowGet cRow "Contact ID"
          ("Row_" ++ toString (List.length ([] : List Row) + 1)))).err = some cErr) ∧
    create_xml_from_csv (([] : List Row) ++ cRow :: []) =
      runRows (List.length ([] : List Row) + 2) []
        { (⟨[], 0, 0, 0, []⟩ : RunState) with
          children := [] ++
            [(buildCounselingRecord cRow
                (rowGet cRow "Contact ID"
                  ("Row_" ++ toString (List.length ([] : List Row) + 1)))).elem],
          failed := 0 + 1,
          issues := [] ++ cIss ++
            (buildCounselingRecord cRow
              (rowGet cRow "Contact ID"
                ("Row_" ++ toString (List.length ([] : List Row) + 1)))).issues ++
            [⟨rowGet cRow "Contact ID" ("Row_" ++ toString (List.length ([] : List Row) + 1)),
              "error", VC.PROCESSING_ERROR, "record",
              "Error processing record: " ++ cErr⟩] } :=
  ⟨rfl, rfl, rfl,
    partial_subtree_retained [] cRow ⟨[], 0, 0, 0, []⟩ cIss cErr rfl rfl rfl []⟩

end CsvToXml

/-! ## Claim C4: the counseling date cleaner -/

namespace PyStr

theorem digVal_digCh {d : Nat} (h : d < 10) : digVal (digCh d) = d := by
  interval_cases d <;> rfl

theorem isAsciiDigit_digCh {d : Nat} (h : d < 10) : isAsciiDigit (digCh d) = true := by
  interval_cases d <;> rfl

theorem natDigitsF_fuel : ∀ (f1 f2 n : Nat), n < f1 → n < f2 →
    natDigitsF f1 n = natDigitsF f2 n := by
  intro f1
  induction f1 with
  | zero => intro f2 n h1; omega
  | succ f ih =>
    intro f2 n h1 h2
    rcases f2 with _ | f2b
    · omega
    · unfold natDigitsF
      by_cases hn : n < 10
      · rw [if_pos hn, if_pos hn]
      · rw [if_neg hn, if_neg hn]
        have hd : n / 10 < f := by omega
        have hd2 : n / 10 < f2b := by omega
        rw [ih f2b (n / 10) hd hd2]

theorem natDigits_rec (n : Nat) :
    natDigits n = if n < 10 then [digCh n] else natDigits (n / 10) ++ [digCh (n % 10)] := by
  have hstep : natDigitsF (n + 1) n =
      if n < 10 then [digCh n] else natDigitsF n (n / 10) ++ [digCh (n % 10)] := rfl
  by_cases hn : n < 10
  · rw [if_pos hn]
    show natDigitsF (n + 1) n = [digCh n]
    rw [hstep, if_pos hn]
  · rw [if_neg hn]
    show natDigitsF (n + 1) n = natDigits (n / 10) ++ [digCh (n % 10)]
    rw [hstep, if_neg hn,
      natDigitsF_fuel n (n / 10 + 1) (n / 10) (by omega) (by omega)]
    rfl

theorem natDigits_all_digits (n : Nat) : ∀ c ∈ natDigits n, isAsciiDigit c = true := by
  induction n using Nat.strong_induction_on with
  | _ n ih =>
    rw [natDigits_rec]
    by_cases hn : n < 10
    · rw [if_pos hn]
      intro c hc
      rw [List.mem_singleton.mp hc]
      exact isAsciiDigit_digCh hn
    · rw [if_neg hn]
      intro c hc
      rcases List.mem_append.mp hc with h | h
      · exact ih (n / 10) (by omega) c h
      · rw [List.mem_singleton.mp h]
        exact isAsciiDigit_digCh (by omega)

theorem digitsVal_append_one (l : List Nat) (d : Nat) :
    digitsVal (l ++ [d]) = digitsVal l * 10 + d := by
  unfold digitsVal
  rw [List.foldl_append]
  rfl

theorem natDigits_val (n : Nat) :
    digitsVal ((natDigits n).map digVal) = n := by
  induction n using Nat.strong_induction_on with
  | _ n ih =>
    rw [natDigits_rec]
    by_cases hn : n < 10
    · rw [if_pos hn]
      show digitsVal [digVal (digCh n)] = n
      unfold digitsVal
      simp [digVal_digCh hn]
    · rw [if_neg hn]
      rw [List.map_append]
      show digitsVal ((natDigits (n / 10)).map digVal ++ [digVal (digCh (n % 10))]) = n
      rw [digitsVal_append_one, ih (n / 10) (by omega), digVal_digCh (by omega)]
      omega

theorem natDigits_len1 {n : Nat} (h : n < 10) : (natDigits n).length = 1 := by
  rw [natDigits_rec, if_pos h]
  rfl

theorem natDigits_len2 {n : Nat} (h1 : 10 ≤ n) (h2 : n ≤ 99) : (natDigits n).length = 2 := by
  rw [natDigits_rec, if_neg (by omega), List.length_append,
    natDigits_len1 (show n / 10 < 10 by omega)]
  rfl

theorem natDigits_len3 {n : Nat} (h1 : 100 ≤ n) (h2 : n ≤ 999) : (natDigits n).length = 3 := by
  rw [natDigits_rec, if_neg (by omega), List.length_append,
    natDigits_len2 (show 10 ≤ n / 10 by omega) (show n / 10 ≤ 99 by omega)]
  rfl

theorem natDigits_len4 {n : Nat} (h1 : 1000 ≤ n) (h2 : n ≤ 9999) :
    (natDigits n).length = 4 := by
  rw [natDigits_rec, if_neg (by omega), List.length_append,
    natDigits_len3 (show 100 ≤ n / 10 by omega) (show n / 10 ≤ 999 by omega)]
  rfl

theorem pad2_all_digits {n : Nat} (h : n ≤ 99) : ∀ c ∈ pad2 n, isAsciiDigit c = true := by
  unfold pad2
  by_cases hn : n < 10
  · rw [if_pos hn]
    intro c hc
    rcases List.mem_cons.mp hc with rfl | hc2
    · rfl
    · rw [List.mem_singleton.mp hc2]
      exact isAsciiDigit_digCh hn
  · rw [if_neg hn]
    exact natDigits_all_digits n

theorem pad2_length {n : Nat} (h : n ≤ 99) : (pad2 n).length = 2 := by
  unfold pad2
  by_cases hn : n < 10
  · rw [if_pos hn]
    rfl
  · rw [if_neg hn]
    exact natDigits_len2 (by omega) h

theorem pad2_val {n : Nat} (h : n ≤ 99) :
    digitsVal ((pad2 n).map digVal) = n := by
  unfold pad2
  by_cases hn : n < 10
  · rw [if_pos hn]
    show digitsVal [digVal '0', digVal (digCh n)] = n
    unfold digitsVal
    simp [digVal_digCh hn]
    rfl
  · rw [if_neg hn]
    exact natDigits_val n

end PyStr

namespace PyStr

theorem pad2_all_digitsU (n : Nat) : ∀ c ∈ pad2 n, isAsciiDigit c = true := by
  unfold pad2
  by_cases hn : n < 10
  · rw [if_pos hn]
    intro c hc
    rcases List.mem_cons.mp hc with rfl | hc2
    · rfl
    · rw [List.mem_singleton.mp hc2]
      exact isAsciiDigit_digCh hn
  · rw [if_neg hn]
    exact natDigits_all_digits n

theorem not_mem_of_all_digits {sep : Char} {l : List Char}
    (hsep : isAsciiDigit sep = false) (h : ∀ c ∈ l, isAsciiDigit c = true) : sep ∉ l := by
  intro hm
  rw [h sep hm] at hsep
  exact Bool.noConfusion hsep

theorem splitOnChar_cons (sep c : Char) (rest : List Char) :
    splitOnChar sep (c :: rest) =
      if c = sep then [] :: splitOnChar sep rest
      else
        match splitOnChar sep rest with
        | [] => [[c]]
        | h :: t => (c :: h) :: t := rfl

theorem splitOnChar_not_mem {sep : Char} : ∀ {l : List Char}, sep ∉ l →
    splitOnChar sep l = [l] := by
  intro l
  induction l with
  | nil => intro _; rfl
  | cons c rest ih =>
    intro h
    have hc : ¬ c = sep := fun hcs => h (hcs ▸ List.mem_cons_self c rest)
    have hr := ih (fun hm => h (List.mem_cons_of_mem c hm))
    rw [splitOnChar_cons, if_neg hc, hr]

theorem splitOnChar_append {sep : Char} : ∀ (a rest : List Char), sep ∉ a →
    splitOnChar sep (a ++ sep :: rest) = a :: splitOnChar sep rest := by
  intro a
  induction a with
  | nil =>
    intro rest _
    show splitOnChar sep (sep :: rest) = [] :: splitOnChar sep rest
    rw [splitOnChar_cons, if_pos rfl]
  | cons c a2 ih =>
    intro rest h
    have hc : ¬ c = sep := fun hcs => h (hcs ▸ List.mem_cons_self c a2)
    have hr := ih rest (fun hm => h (List.mem_cons_of_mem c hm))
    show splitOnChar sep (c :: (a2 ++ sep :: rest)) = (c :: a2) :: splitOnChar sep rest
    rw [splitOnChar_cons, if_neg hc, hr]

theorem splitOnChar_three {sep : Char} {a b c : List Char}
    (ha : sep ∉ a) (hb : sep ∉ b) (hc : sep ∉ c) :
    splitOnChar sep (a ++ sep :: (b ++ sep :: c)) = [a, b, c] := by
  rw [splitOnChar_append a _ ha, splitOnChar_append b _ hb, splitOnChar_not_mem hc]

theorem isPySpace_false_of_digit {c : Char} (h : isAsciiDigit c = true) :
    isPySpace c = false := by
  unfold isAsciiDigit at h
  simp only [Bool.and_eq_true, decide_eq_true_eq] at h
  unfold isPySpace
  simp only [Bool.or_eq_false_iff, decide_eq_false_iff_not]
  refine ⟨⟨⟨⟨⟨?_, ?_⟩, ?_⟩, ?_⟩, ?_⟩, ?_⟩ <;>
    exact fun hc => absurd (hc ▸ h) (by decide)

theorem dropWhile_eq_self_of {p : Char → Bool} {l : List Char}
    (h : ∀ c ∈ l, p c = false) : l.dropWhile p = l := by
  cases l with
  | nil => rfl
  | cons c rest =>
    apply List.dropWhile_cons_of_neg
    rw [h c (List.mem_cons_self c rest)]
    exact Bool.noConfusion

theorem stripL_eq {l : List Char} (h : ∀ c ∈ l, isPySpace c = false) : stripL l = l := by
  unfold stripL
  rw [dropWhile_eq_self_of h,
    dropWhile_eq_self_of (fun c hc => h c (List.mem_reverse.mp hc)),
    List.reverse_reverse]

theorem lowerL_length (l : List Char) : (lowerL l).length = l.length :=
  List.length_map l lowerChar

theorem isBlankNan_false_of {l : List Char} (hne : l ≠ [])
    (hstrip : stripL l = l) (hlen : l.length ≠ 3) :
    isBlankNan (some ⟨l⟩) = false := by
  unfold isBlankNan
  simp only [Bool.or_eq_false_iff]
  refine ⟨⟨?_, ?_⟩, ?_⟩
  · show l.isEmpty = false
    simpa using hne
  · show (stripL l).isEmpty = false
    rw [hstrip]
    simpa using hne
  · show decide (lowerL l = ['n', 'a', 'n']) = false
    simp only [decide_eq_false_iff_not]
    intro hc
    have h2 := congrArg List.length hc
    rw [lowerL_length] at h2
    exact hlen h2

end PyStr

namespace PyDate

open PyStr

theorem allDigits_natDigits (n : Nat) : allDigits (natDigits n) = true :=
  List.all_eq_true.mpr (fun c hc => natDigits_all_digits n c hc)

theorem allDigits_pad2 (n : Nat) : allDigits (pad2 n) = true :=
  List.all_eq_true.mpr (fun c hc => pad2_all_digitsU n c hc)

theorem digitsValL_natDigits (n : Nat) : digitsValL (natDigits n) = n := natDigits_val n

theorem digitsValL_pad2 {n : Nat} (h : n ≤ 99) : digitsValL (pad2 n) = n := pad2_val h

theorem fieldVal_Y4_natDigits {y : Nat} (h1 : 1000 ≤ y) (h2 : y ≤ 9999) :
    fieldVal .Y4 (natDigits y) = some y := by
  unfold fieldVal
  rw [allDigits_natDigits, natDigits_len4 h1 h2, digitsValL_natDigits]
  rfl

theorem fieldVal_Y4_pad2 (n : Nat) (h : n ≤ 99) : fieldVal .Y4 (pad2 n) = none := by
  unfold fieldVal
  rw [allDigits_pad2, pad2_length h]
  rfl

theorem fieldVal_Y2_natDigits {y : Nat} (h1 : 1000 ≤ y) (h2 : y ≤ 9999) :
    fieldVal .Y2 (natDigits y) = none := by
  unfold fieldVal
  rw [allDigits_natDigits, natDigits_len4 h1 h2]
  rfl

theorem fieldVal_Y2_pad2 {n : Nat} (h : n ≤ 99) :
    fieldVal .Y2 (pad2 n) = some (if n ≤ 68 then 2000 + n else 1900 + n) := by
  unfold fieldVal
  rw [allDigits_pad2, pad2_length h, digitsValL_pad2 h]
  rfl

theorem fieldVal_M_pad2_some {m : Nat} (h1 : 1 ≤ m) (h2 : m ≤ 12) :
    fieldVal .M (pad2 m) = some m := by
  unfold fieldVal
  rw [allDigits_pad2, pad2_length (by omega), digitsValL_pad2 (by omega)]
  show (if (!true) = true then none
    else if ((2 = 1 : Bool) || (2 = 2 : Bool)) && (decide (1 ≤ m)) && (decide (m ≤ 12))
      then some m else none) = some m
  rw [if_neg (by decide), if_pos]
  simp only [Bool.and_eq_true, Bool.or_eq_true, decide_eq_true_eq]
  exact ⟨⟨Or.inr trivial, h1⟩, h2⟩

theorem fieldVal_M_pad2_none {n : Nat} (h1 : n ≤ 99) (h2 : ¬ (1 ≤ n ∧ n ≤ 12)) :
    fieldVal .M (pad2 n) = none := by
  unfold fieldVal
  rw [allDigits_pad2, pad2_length h1, digitsValL_pad2 h1]
  show (if (!true) = true then none
    else if ((2 = 1 : Bool) || (2 = 2 : Bool)) && (decide (1 ≤ n)) && (decide (n ≤ 12))
      then some n else none) = none
  rw [if_neg (by decide), if_neg]
  simp only [Bool.and_eq_true, Bool.or_eq_true, decide_eq_true_eq]
  omega

theorem fieldVal_M_natDigits {y : Nat} (h1 : 1000 ≤ y) (h2 : y ≤ 9999) :
    fieldVal .M (natDigits y) = none := by
  unfold fieldVal
  rw [allDigits_natDigits, natDigits_len4 h1 h2, digitsValL_natDigits]
  show (if (!true) = true then none
    else if ((4 = 1 : Bool) || (4 = 2 : Bool)) && (decide (1 ≤ y)) && (decide (y ≤ 12))
      then some y else none) = none
  rw [if_neg (by decide), if_neg]
  simp only [Bool.and_eq_true, Bool.or_eq_true, decide_eq_true_eq]
  omega

theorem fieldVal_D_pad2_some {d : Nat} (h1 : 1 ≤ d) (h2 : d ≤ 31) :
    fieldVal .D (pad2 d) = some d := by
  unfold fieldVal
  rw [allDigits_pad2, pad2_length (by omega), digitsValL_pad2 (by omega)]
  show (if (!true) = true then none
    else if ((2 = 1 : Bool) || (2 = 2 : Bool)) && (decide (1 ≤ d)) && (decide (d ≤ 31))
      then some d else none) = some d
  rw [if_neg (by decide), if_pos]
  simp only [Bool.and_eq_true, Bool.or_eq_true, decide_eq_true_eq]
  exact ⟨⟨Or.inr trivial, h1⟩, h2⟩

end PyDate

namespace PyDate

open PyStr

theorem daysInMonth_ge_28 (y m : Nat) : 28 ≤ daysInMonth y m := by
  unfold daysInMonth
  split_ifs <;> omega

theorem daysInMonth_le_31 (y m : Nat) : daysInMonth y m ≤ 31 := by
  unfold daysInMonth
  split_ifs <;> omega

theorem dateOk_bounds {d : MyDate} (h : dateOk d = true) :
    1 ≤ d.year ∧ d.year ≤ 9999 ∧ 1 ≤ d.month ∧ d.month ≤ 12 ∧ 1 ≤ d.day ∧ d.day ≤ 31 := by
  unfold dateOk at h
  simp only [Bool.and_eq_true, decide_eq_true_eq] at h
  have h31 := daysInMonth_le_31 d.year d.month
  omega

theorem dateOk_mk {y m dd : Nat} (h1 : 1 ≤ y) (h2 : y ≤ 9999) (h3 : 1 ≤ m) (h4 : m ≤ 12)
    (h5 : 1 ≤ dd) (h6 : dd ≤ 28) : dateOk ⟨y, m, dd⟩ = true := by
  unfold dateOk
  have h28 := daysInMonth_ge_28 y m
  simp only [Bool.and_eq_true, decide_eq_true_eq]
  refine ⟨⟨⟨⟨⟨h1, h2⟩, h3⟩, h4⟩, h5⟩, ?_⟩
  omega

theorem fieldOut_all_digits (f : DField) (d : MyDate) :
    ∀ c ∈ fieldOut f d, isAsciiDigit c = true := by
  cases f
  · exact natDigits_all_digits _
  · exact pad2_all_digitsU _
  · exact pad2_all_digitsU _
  · exact pad2_all_digitsU _

theorem sep_not_mem_fieldOut {sep : Char} (hs : isAsciiDigit sep = false)
    (f : DField) (d : MyDate) : sep ∉ fieldOut f d :=
  not_mem_of_all_digits hs (fieldOut_all_digits f d)

theorem strftime_split (fmt : DateFmt) (d : MyDate) (hs : isAsciiDigit fmt.sep = false) :
    splitOnChar fmt.sep (strftimeL fmt d) =
      [fieldOut fmt.f1 d, fieldOut fmt.f2 d, fieldOut fmt.f3 d] := by
  unfold strftimeL
  exact splitOnChar_three (sep_not_mem_fieldOut hs _ _) (sep_not_mem_fieldOut hs _ _)
    (sep_not_mem_fieldOut hs _ _)

theorem sep2_not_mem_strftime {sep2 : Char} (fmt : DateFmt) (d : MyDate)
    (h1 : isAsciiDigit sep2 = false) (h2 : sep2 ≠ fmt.sep) : sep2 ∉ strftimeL fmt d := by
  unfold strftimeL
  intro hm
  rcases List.mem_append.mp hm with h | h
  · exact sep_not_mem_fieldOut h1 _ _ h
  · rcases List.mem_cons.mp h with h | h
    · exact h2 h
    · rcases List.mem_append.mp h with h | h
      · exact sep_not_mem_fieldOut h1 _ _ h
      · rcases List.mem_cons.mp h with h | h
        · exact h2 h
        · exact sep_not_mem_fieldOut h1 _ _ h

theorem strftime_no_space (fmt : DateFmt) (d : MyDate) (hsep : isPySpace fmt.sep = false) :
    ∀ c ∈ strftimeL fmt d, isPySpace c = false := by
  unfold strftimeL
  intro c hm
  rcases List.mem_append.mp hm with h | h
  · exact isPySpace_false_of_digit (fieldOut_all_digits _ _ c h)
  · rcases List.mem_cons.mp h with rfl | h
    · exact hsep
    · rcases List.mem_append.mp h with h | h
      · exact isPySpace_false_of_digit (fieldOut_all_digits _ _ c h)
      · rcases List.mem_cons.mp h with rfl | h
        · exact hsep
        · exact isPySpace_false_of_digit (fieldOut_all_digits _ _ c h)

theorem strftime_ne_nil (fmt : DateFmt) (d : MyDate) : strftimeL fmt d ≠ [] := by
  unfold strftimeL
  intro hc
  have h2 := congrArg List.length hc
  simp at h2

theorem fieldOut_len_pos (f : DField) (d : MyDate) : 1 ≤ (fieldOut f d).length := by
  have hnd : ∀ n : Nat, 1 ≤ (natDigits n).length := by
    intro n
    rw [natDigits_rec]
    by_cases hn : n < 10
    · rw [if_pos hn]; rfl
    · rw [if_neg hn]
      simp
  have hp2 : ∀ n : Nat, 1 ≤ (pad2 n).length := by
    intro n
    unfold pad2
    by_cases hn : n < 10
    · rw [if_pos hn]; simp
    · rw [if_neg hn]; exact hnd n
  cases f
  · exact hnd _
  · exact hp2 _
  · exact hp2 _
  · exact hp2 _

theorem strftime_len_ne3 (fmt : DateFmt) (d : MyDate) : (strftimeL fmt d).length ≠ 3 := by
  unfold strftimeL
  have h1 := fieldOut_len_pos fmt.f1 d
  have h2 := fieldOut_len_pos fmt.f2 d
  have h3 := fieldOut_len_pos fmt.f3 d
  simp only [List.length_append, List.length_cons]
  omega

theorem strptime_none_cross (fmt2 fmt : DateFmt) (d : MyDate)
    (h1 : isAsciiDigit fmt2.sep = false) (h2 : fmt2.sep ≠ fmt.sep) :
    pyStrptimeL fmt2 (strftimeL fmt d) = none := by
  unfold pyStrptimeL pyStrptimeRaw
  rw [splitOnChar_not_mem (sep2_not_mem_strftime fmt d h1 h2)]

theorem strptime_none_f1 {fmt : DateFmt} {l a b c : List Char}
    (hs : splitOnChar fmt.sep l = [a, b, c]) (h1 : fieldVal fmt.f1 a = none) :
    pyStrptimeL fmt l = none := by
  unfold pyStrptimeL pyStrptimeRaw
  rw [hs]
  dsimp only
  rw [h1]

theorem strptime_none_f3 {fmt : DateFmt} {l a b c : List Char}
    (hs : splitOnChar fmt.sep l = [a, b, c]) (h3 : fieldVal fmt.f3 c = none) :
    pyStrptimeL fmt l = none := by
  unfold pyStrptimeL pyStrptimeRaw
  rw [hs]
  dsimp only
  rw [h3]
  rcases fieldVal fmt.f1 a with _ | v1 <;> rcases fieldVal fmt.f2 b with _ | v2 <;> rfl

theorem firstParse_cons (f : DateFmt) (fmts : List DateFmt) (l : List Char) :
    firstParse (f :: fmts) l =
      match pyStrptimeL f l with
      | some d => some d
      | none => firstParse fmts l := rfl

theorem firstParse_cons_none {f : DateFmt} {fmts : List DateFmt} {l : List Char}
    (h : pyStrptimeL f l = none) : firstParse (f :: fmts) l = firstParse fmts l := by
  rw [firstParse_cons, h]

theorem firstParse_cons_some {f : DateFmt} {fmts : List DateFmt} {l : List Char}
    {d : MyDate} (h : pyStrptimeL f l = some d) : firstParse (f :: fmts) l = some d := by
  rw [firstParse_cons, h]

end PyDate


namespace PyDate

open PyStr

theorem strptime_self_YmdDash {d : MyDate} (h : dateOk d = true) (hy : 1000 ≤ d.year) :
    pyStrptimeL fmtYmdDash (strftimeL fmtYmdDash d) = some d := by
  obtain ⟨b1, b2, b3, b4, b5, b6⟩ := dateOk_bounds h
  have hsplit := strftime_split fmtYmdDash d (by decide)
  dsimp only [fmtYmdDash, fieldOut] at hsplit
  unfold pyStrptimeL pyStrptimeRaw
  dsimp only [fmtYmdDash]
  rw [hsplit]
  dsimp only
  rw [fieldVal_Y4_natDigits hy b2, fieldVal_M_pad2_some b3 b4, fieldVal_D_pad2_some b5 b6]
  show (if dateOk d = true then some d else none) = some d
  rw [if_pos h]

theorem strptime_self_MdYSlash {d : MyDate} (h : dateOk d = true) (hy : 1000 ≤ d.year) :
    pyStrptimeL fmtMdYSlash (strftimeL fmtMdYSlash d) = some d := by
  obtain ⟨b1, b2, b3, b4, b5, b6⟩ := dateOk_bounds h
  have hsplit := strftime_split fmtMdYSlash d (by decide)
  dsimp only [fmtMdYSlash, fieldOut] at hsplit
  unfold pyStrptimeL pyStrptimeRaw
  dsimp only [fmtMdYSlash]
  rw [hsplit]
  dsimp only
  rw [fieldVal_M_pad2_some b3 b4, fieldVal_D_pad2_some b5 b6, fieldVal_Y4_natDigits hy b2]
  show (if dateOk d = true then some d else none) = some d
  rw [if_pos h]

theorem strptime_self_MdYDash {d : MyDate} (h : dateOk d = true) (hy : 1000 ≤ d.year) :
    pyStrptimeL fmtMdYDash (strftimeL fmtMdYDash d) = some d := by
  obtain ⟨b1, b2, b3, b4, b5, b6⟩ := dateOk_bounds h
  have hsplit := strftime_split fmtMdYDash d (by decide)
  dsimp only [fmtMdYDash, fieldOut] at hsplit
  unfold pyStrptimeL pyStrptimeRaw
  dsimp only [fmtMdYDash]
  rw [hsplit]
  dsimp only
  rw [fieldVal_M_pad2_some b3 b4, fieldVal_D_pad2_some b5 b6, fieldVal_Y4_natDigits hy b2]
  show (if dateOk d = true then some d else none) = some d
  rw [if_pos h]

theorem strptime_self_MdySlash {d : MyDate} (h : dateOk d = true) (hy1 : 1969 ≤ d.year)
    (hy2 : d.year ≤ 2068) :
    pyStrptimeL fmtMdySlash (strftimeL fmtMdySlash d) = some d := by
  obtain ⟨b1, b2, b3, b4, b5, b6⟩ := dateOk_bounds h
  have hsplit := strftime_split fmtMdySlash d (by decide)
  dsimp only [fmtMdySlash, fieldOut] at hsplit
  have hyv : (if d.year % 100 ≤ 68 then 2000 + d.year % 100 else 1900 + d.year % 100)
      = d.year := by split_ifs <;> omega
  unfold pyStrptimeL pyStrptimeRaw
  dsimp only [fmtMdySlash]
  rw [hsplit]
  dsimp only
  rw [fieldVal_M_pad2_some b3 b4, fieldVal_D_pad2_some b5 b6, fieldVal_Y2_pad2 (by omega),
    hyv]
  show (if dateOk d = true then some d else none) = some d
  rw [if_pos h]

theorem strptime_self_DmYDash {d : MyDate} (h : dateOk d = true) (hy : 1000 ≤ d.year) :
    pyStrptimeL fmtDmYDash (strftimeL fmtDmYDash d) = some d := by
  obtain ⟨b1, b2, b3, b4, b5, b6⟩ := dateOk_bounds h
  have hsplit := strftime_split fmtDmYDash d (by decide)
  dsimp only [fmtDmYDash, fieldOut] at hsplit
  unfold pyStrptimeL pyStrptimeRaw
  dsimp only [fmtDmYDash]
  rw [hsplit]
  dsimp only
  rw [fieldVal_D_pad2_some b5 b6, fieldVal_M_pad2_some b3 b4, fieldVal_Y4_natDigits hy b2]
  show (if dateOk d = true then some d else none) = some d
  rw [if_pos h]

theorem strptime_self_YmdSlash {d : MyDate} (h : dateOk d = true) (hy : 1000 ≤ d.year) :
    pyStrptimeL fmtYmdSlash (strftimeL fmtYmdSlash d) = some d := by
  obtain ⟨b1, b2, b3, b4, b5, b6⟩ := dateOk_bounds h
  have hsplit := strftime_split fmtYmdSlash d (by decide)
  dsimp only [fmtYmdSlash, fieldOut] at hsplit
  unfold pyStrptimeL pyStrptimeRaw
  dsimp only [fmtYmdSlash]
  rw [hsplit]
  dsimp only
  rw [fieldVal_Y4_natDigits hy b2, fieldVal_M_pad2_some b3 b4, fieldVal_D_pad2_some b5 b6]
  show (if dateOk d = true then some d else none) = some d
  rw [if_pos h]

theorem strptime_self_Y2mdSlash {d : MyDate} (h : dateOk d = true) (hy1 : 1969 ≤ d.year)
    (hy2 : d.year ≤ 2068) :
    pyStrptimeL fmtY2mdSlash (strftimeL fmtY2mdSlash d) = some d := by
  obtain ⟨b1, b2, b3, b4, b5, b6⟩ := dateOk_bounds h
  have hsplit := strftime_split fmtY2mdSlash d (by decide)
  dsimp only [fmtY2mdSlash, fieldOut] at hsplit
  have hyv : (if d.year % 100 ≤ 68 then 2000 + d.year % 100 else 1900 + d.year % 100)
      = d.year := by split_ifs <;> omega
  unfold pyStrptimeL pyStrptimeRaw
  dsimp only [fmtY2mdSlash]
  rw [hsplit]
  dsimp only
  rw [fieldVal_Y2_pad2 (by omega), hyv, fieldVal_M_pad2_some b3 b4,
    fieldVal_D_pad2_some b5 b6]
  show (if dateOk d = true then some d else none) = some d
  rw [if_pos h]

theorem strptime_self_MdyDash {d : MyDate} (h : dateOk d = true) (hy1 : 1969 ≤ d.year)
    (hy2 : d.year ≤ 2068) :
    pyStrptimeL fmtMdyDash (strftimeL fmtMdyDash d) = some d := by
  obtain ⟨b1, b2, b3, b4, b5, b6⟩ := dateOk_bounds h
  have hsplit := strftime_split fmtMdyDash d (by decide)
  dsimp only [fmtMdyDash, fieldOut] at hsplit
  have hyv : (if d.year % 100 ≤ 68 then 2000 + d.year % 100 else 1900 + d.year % 100)
      = d.year := by split_ifs <;> omega
  unfold pyStrptimeL pyStrptimeRaw
  dsimp only [fmtMdyDash]
  rw [hsplit]
  dsimp only
  rw [fieldVal_M_pad2_some b3 b4, fieldVal_D_pad2_some b5 b6, fieldVal_Y2_pad2 (by omega),
    hyv]
  show (if dateOk d = true then some d else none) = some d
  rw [if_pos h]

theorem strptime_mdY_on_dmY {d : MyDate} (h : dateOk d = true) (hy : 1000 ≤ d.year)
    (hd : d.day ≤ 12) :
    pyStrptimeL fmtMdYDash (strftimeL fmtDmYDash d) = some ⟨d.year, d.day, d.month⟩ := by
  obtain ⟨b1, b2, b3, b4, b5, b6⟩ := dateOk_bounds h
  have hsplit : splitOnChar '-' (strftimeL fmtDmYDash d) =
      [pad2 d.day, pad2 d.month, natDigits d.year] := strftime_split fmtDmYDash d (by decide)
  have hok : dateOk ⟨d.year, d.day, d.month⟩ = true := dateOk_mk b1 b2 b5 hd b3 (by omega)
  unfold pyStrptimeL pyStrptimeRaw
  dsimp only [fmtMdYDash]
  rw [hsplit]
  dsimp only
  rw [fieldVal_M_pad2_some b5 hd, fieldVal_D_pad2_some b3 (by omega),
    fieldVal_Y4_natDigits hy b2]
  show (if dateOk (⟨d.year, d.day, d.month⟩ : MyDate) = true
      then some (⟨d.year, d.day, d.month⟩ : MyDate) else none) = some ⟨d.year, d.day, d.month⟩
  rw [if_pos hok]

end PyDate

namespace PyDate

open PyStr

theorem firstParse_default_YmdDash {d : MyDate} (h : dateOk d = true) (hy : 1000 ≤ d.year) :
    firstParse DataCleaning.defaultFormats (strftimeL fmtYmdDash d) = some d := by
  unfold DataCleaning.defaultFormats
  exact firstParse_cons_some (strptime_self_YmdDash h hy)

theorem firstParse_default_MdYSlash {d : MyDate} (h : dateOk d = true) (hy : 1000 ≤ d.year) :
    firstParse DataCleaning.defaultFormats (strftimeL fmtMdYSlash d) = some d := by
  unfold DataCleaning.defaultFormats
  rw [firstParse_cons_none
    (strptime_none_cross fmtYmdDash fmtMdYSlash d (by decide) (by decide))]
  exact firstParse_cons_some (strptime_self_MdYSlash h hy)

theorem firstParse_default_MdYDash {d : MyDate} (h : dateOk d = true) (hy : 1000 ≤ d.year) :
    firstParse DataCleaning.defaultFormats (strftimeL fmtMdYDash d) = some d := by
  obtain ⟨b1, b2, b3, b4, b5, b6⟩ := dateOk_bounds h
  have hsplit : splitOnChar '-' (strftimeL fmtMdYDash d) =
      [pad2 d.month, pad2 d.day, natDigits d.year] := strftime_split fmtMdYDash d (by decide)
  unfold DataCleaning.defaultFormats
  rw [firstParse_cons_none (strptime_none_f1 hsplit (fieldVal_Y4_pad2 d.month (by omega)))]
  rw [firstParse_cons_none
    (strptime_none_cross fmtMdYSlash fmtMdYDash d (by decide) (by decide))]
  exact firstParse_cons_some (strptime_self_MdYDash h hy)

theorem firstParse_default_MdySlash {d : MyDate} (h : dateOk d = true) (hy1 : 1969 ≤ d.year)
    (hy2 : d.year ≤ 2068) :
    firstParse DataCleaning.defaultFormats (strftimeL fmtMdySlash d) = some d := by
  obtain ⟨b1, b2, b3, b4, b5, b6⟩ := dateOk_bounds h
  have hsplit : splitOnChar '/' (strftimeL fmtMdySlash d) =
      [pad2 d.month, pad2 d.day, pad2 (d.year % 100)] :=
    strftime_split fmtMdySlash d (by decide)
  unfold DataCleaning.defaultFormats
  rw [firstParse_cons_none
    (strptime_none_cross fmtYmdDash fmtMdySlash d (by decide) (by decide))]
  rw [firstParse_cons_none
    (strptime_none_f3 hsplit (fieldVal_Y4_pad2 (d.year % 100) (by omega)))]
  rw [firstParse_cons_none
    (strptime_none_cross fmtMdYDash fmtMdySlash d (by decide) (by decide))]
  exact firstParse_cons_some (strptime_self_MdySlash h hy1 hy2)

theorem firstParse_default_DmYDash {d : MyDate} (h : dateOk d = true) (hy : 1000 ≤ d.year)
    (hcond : 13 ≤ d.day ∨ d.day = d.month) :
    firstParse DataCleaning.defaultFormats (strftimeL fmtDmYDash d) = some d := by
  obtain ⟨b1, b2, b3, b4, b5, b6⟩ := dateOk_bounds h
  have hsplit : splitOnChar '-' (strftimeL fmtDmYDash d) =
      [pad2 d.day, pad2 d.month, natDigits d.year] := strftime_split fmtDmYDash d (by decide)
  unfold DataCleaning.defaultFormats
  rw [firstParse_cons_none (strptime_none_f1 hsplit (fieldVal_Y4_pad2 d.day (by omega)))]
  rw [firstParse_cons_none
    (strptime_none_cross fmtMdYSlash fmtDmYDash d (by decide) (by decide))]
  by_cases hd12 : d.day ≤ 12
  · have hswap := strptime_mdY_on_dmY h hy hd12
    have heq : d.day = d.month := by omega
    have heq2 : (⟨d.year, d.day, d.month⟩ : MyDate) = d := by
      rcases d with ⟨y, m, dd⟩
      dsimp at heq ⊢
      rw [heq]
    rw [heq2] at hswap
    exact firstParse_cons_some hswap
  · rw [firstParse_cons_none
      (strptime_none_f1 hsplit (fieldVal_M_pad2_none (by omega) (by omega)))]
    rw [firstParse_cons_none
      (strptime_none_cross fmtMdySlash fmtDmYDash d (by decide) (by decide))]
    exact firstParse_cons_some (strptime_self_DmYDash h hy)

theorem firstParse_default_YmdSlash {d : MyDate} (h : dateOk d = true) (hy : 1000 ≤ d.year) :
    firstParse DataCleaning.defaultFormats (strftimeL fmtYmdSlash d) = some d := by
  obtain ⟨b1, b2, b3, b4, b5, b6⟩ := dateOk_bounds h
  have hsplit : splitOnChar '/' (strftimeL fmtYmdSlash d) =
      [natDigits d.year, pad2 d.month, pad2 d.day] := strftime_split fmtYmdSlash d (by decide)
  unfold DataCleaning.defaultFormats
  rw [firstParse_cons_none
    (strptime_none_cross fmtYmdDash fmtYmdSlash d (by decide) (by decide))]
  rw [firstParse_cons_none (strptime_none_f1 hsplit (fieldVal_M_natDigits hy b2))]
  rw [firstParse_cons_none
    (strptime_none_cross fmtMdYDash fmtYmdSlash d (by decide) (by decide))]
  rw [firstParse_cons_none (strptime_none_f1 hsplit (fieldVal_M_natDigits hy b2))]
  rw [firstParse_cons_none
    (strptime_none_cross fmtDmYDash fmtYmdSlash d (by decide) (by decide))]
  exact firstParse_cons_some (strptime_self_YmdSlash h hy)

theorem firstParse_default_Y2mdSlash {d : MyDate} (h : dateOk d = true)
    (hy1 : 1969 ≤ d.year) (hy2 : d.year ≤ 2068)
    (hcond : d.year % 100 = 0 ∨ 13 ≤ d.year % 100) :
    firstParse DataCleaning.defaultFormats (strftimeL fmtY2mdSlash d) = some d := by
  obtain ⟨b1, b2, b3, b4, b5, b6⟩ := dateOk_bounds h
  have hsplit : splitOnChar '/' (strftimeL fmtY2mdSlash d) =
      [pad2 (d.year % 100), pad2 d.month, pad2 d.day] :=
    strftime_split fmtY2mdSlash d (by decide)
  unfold DataCleaning.defaultFormats
  rw [firstParse_cons_none
    (strptime_none_cross fmtYmdDash fmtY2mdSlash d (by decide) (by decide))]
  rw [firstParse_cons_none (strptime_none_f3 hsplit (fieldVal_Y4_pad2 d.day (by omega)))]
  rw [firstParse_cons_none
    (strptime_none_cross fmtMdYDash fmtY2mdSlash d (by decide) (by decide))]
  rw [firstParse_cons_none
    (strptime_none_f1 hsplit (fieldVal_M_pad2_none (by omega) (by omega)))]
  rw [firstParse_cons_none
    (strptime_none_cross fmtDmYDash fmtY2mdSlash d (by decide) (by decide))]
  rw [firstParse_cons_none
    (strptime_none_f1 hsplit (fieldVal_Y4_pad2 (d.year % 100) (by omega)))]
  exact firstParse_cons_some (strptime_self_Y2mdSlash h hy1 hy2)

theorem firstParse_default_MdyDash {d : MyDate} (h : dateOk d = true) (hy1 : 1969 ≤ d.year)
    (hy2 : d.year ≤ 2068) :
    firstParse DataCleaning.defaultFormats (strftimeL fmtMdyDash d) = some d := by
  obtain ⟨b1, b2, b3, b4, b5, b6⟩ := dateOk_bounds h
  have hsplit : splitOnChar '-' (strftimeL fmtMdyDash d) =
      [pad2 d.month, pad2 d.day, pad2 (d.year % 100)] :=
    strftime_split fmtMdyDash d (by decide)
  unfold DataCleaning.defaultFormats
  rw [firstParse_cons_none (strptime_none_f1 hsplit (fieldVal_Y4_pad2 d.month (by omega)))]
  rw [firstParse_cons_none
    (strptime_none_cross fmtMdYSlash fmtMdyDash d (by decide) (by decide))]
  rw [firstParse_cons_none
    (strptime_none_f3 hsplit (fieldVal_Y4_pad2 (d.year % 100) (by omega)))]
  rw [firstParse_cons_none
    (strptime_none_cross fmtMdySlash fmtMdyDash d (by decide) (by decide))]
  rw [firstParse_cons_none
    (strptime_none_f3 hsplit (fieldVal_Y4_pad2 (d.year % 100) (by omega)))]
  rw [firstParse_cons_none
    (strptime_none_cross fmtYmdSlash fmtMdyDash d (by decide) (by decide))]
  rw [firstParse_cons_none
    (strptime_none_cross fmtY2mdSlash fmtMdyDash d (by decide) (by decide))]
  exact firstParse_cons_some (strptime_self_MdyDash h hy1 hy2)

end PyDate

namespace PyDate

open PyStr

theorem firstParse_append_none {l : List Char} : ∀ pre rest : List DateFmt,
    (∀ g ∈ pre, pyStrptimeL g l = none) →
    firstParse (pre ++ rest) l = firstParse rest l := by
  intro pre
  induction pre with
  | nil => intro rest _; rfl
  | cons f fs ih =>
    intro rest hall
    rw [List.cons_append, firstParse_cons_none (hall f (List.mem_cons_self f fs))]
    exact ih rest (fun g hg => hall g (List.mem_cons_of_mem f hg))

theorem format_date_of_firstParse {fmt : DateFmt} {d2 : MyDate} (d : MyDate)
    (hsp : isPySpace fmt.sep = false)
    (hfp : firstParse DataCleaning.defaultFormats (strftimeL fmt d) = some d2) :
    DataCleaning.format_date (some ⟨strftimeL fmt d⟩) = isoDate d2 := by
  unfold DataCleaning.format_date
  rw [isBlankNan_false_of (strftime_ne_nil fmt d)
    (stripL_eq (strftime_no_space fmt d hsp)) (strftime_len_ne3 fmt d)]
  dsimp only [Option.getD]
  rw [stripL_eq (strftime_no_space fmt d hsp), hfp]
  rfl

end PyDate

namespace DataCleaning

open PyStr PyDate

/-- **C4.** The date cleaner round-trip and fallback contract, with the
round-trip half corrected. `format_date` with the default pattern list:
(i) for every valid calendar date `d` with a four-digit year,
`clean(format(d, p)) = isoForm(d)` holds unconditionally for the patterns
`%Y-%m-%d`, `%m/%d/%Y`, `%m-%d-%Y` and `%Y/%m/%d`;
(ii) for `%d-%m-%Y` it holds exactly when the rendered string is not
captured first by the earlier `%m-%d-%Y` pattern with a different meaning,
i.e. when `13 ≤ day` or `day = month`;
(iii) for the two-digit-year patterns `%m/%d/%y` and `%m-%d-%y` it holds
when the year lies in the `strptime` pivot range 1969..2068;
(iv) for `%y/%m/%d` it additionally needs the two-digit year to escape the
earlier `%m/%d/%y` pattern (`year % 100 = 0` or `13 ≤ year % 100`);
(v) a non-blank input string on which every configured pattern fails comes
back as the caller-supplied default, with no exception (`none` models the
caught `ValueError`, and the lenient fallback re-tries `%Y-%m-%d`, which
also fails by hypothesis);
(vi) the first pattern in the configured list that parses wins. -/
theorem format_date_contract :
    (∀ d : MyDate, dateOk d = true → 1000 ≤ d.year →
      ∀ f ∈ [fmtYmdDash, fmtMdYSlash, fmtMdYDash, fmtYmdSlash],
        format_date (some ⟨strftimeL f d⟩) = isoDate d) ∧
    (∀ d : MyDate, dateOk d = true → 1000 ≤ d.year → 13 ≤ d.day ∨ d.day = d.month →
      format_date (some ⟨strftimeL fmtDmYDash d⟩) = isoDate d) ∧
    (∀ d : MyDate, dateOk d = true → 1969 ≤ d.year → d.year ≤ 2068 →
      ∀ f ∈ [fmtMdySlash, fmtMdyDash],
        format_date (some ⟨strftimeL f d⟩) = isoDate d) ∧
    (∀ d : MyDate, dateOk d = true → 1969 ≤ d.year → d.year ≤ 2068 →
      d.year % 100 = 0 ∨ 13 ≤ d.year % 100 →
      format_date (some ⟨strftimeL fmtY2mdSlash d⟩) = isoDate d) ∧
    (∀ s dflt : String, isBlankNan (some s) = false →
      (∀ f ∈ defaultFormats, pyStrptimeL f (stripL s.data) = none) →
      format_date (some s) none dflt = dflt) ∧
    (∀ (l : List Char) (pre post : List DateFmt) (f : DateFmt) (d : MyDate) (dflt : String),
      defaultFormats = pre ++ f :: post →
      (∀ g ∈ pre, pyStrptimeL g (stripL l) = none) →
      pyStrptimeL f (stripL l) = some d →
      isBlankNan (some ⟨l⟩) = false →
      format_date (some ⟨l⟩) none dflt = isoDate d) := by
  refine ⟨?_, ?_, ?_, ?_, ?_, ?_⟩
  · intro d h hy f hf
    simp only [List.mem_cons, List.not_mem_nil, or_false] at hf
    rcases hf with rfl | rfl | rfl | rfl
    · exact format_date_of_firstParse d (by decide) (firstParse_default_YmdDash h hy)
    · exact format_date_of_firstParse d (by decide) (firstParse_default_MdYSlash h hy)
    · exact format_date_of_firstParse d (by decide) (firstParse_default_MdYDash h hy)
    · exact format_date_of_firstParse d (by decide) (firstParse_default_YmdSlash h hy)
  · intro d h hy hcond
    exact format_date_of_firstParse d (by decide) (firstParse_default_DmYDash h hy hcond)
  · intro d h hy1 hy2 f hf
    simp only [List.mem_cons, List.not_mem_nil, or_false] at hf
    rcases hf with rfl | rfl
    · exact format_date_of_firstParse d (by decide) (firstParse_default_MdySlash h hy1 hy2)
    · exact format_date_of_firstParse d (by decide) (firstParse_default_MdyDash h hy1 hy2)
  · intro d h hy1 hy2 hcond
    exact format_date_of_firstParse d (by decide) (firstParse_default_Y2mdSlash h hy1 hy2 hcond)
  · intro s dflt hblank hall
    unfold format_date
    rw [hblank]
    dsimp only [Option.getD]
    rw [firstParse_eq_none defaultFormats (stripL s.data) hall]
    rw [hall fmtYmdDash (by decide)]
    rw [if_neg (fun hc => Bool.noConfusion hc)]
    show (if lenientYmd (stripL s.data) = true then
        (match (none : Option MyDate) with
          | some d => isoDate d
          | none => dflt)
      else dflt) = dflt
    split <;> rfl
  · intro l pre post f d dflt hdef hpre hf hblank
    unfold format_date
    rw [hblank]
    dsimp only [Option.getD]
    rw [hdef, firstParse_append_none pre (f :: post) hpre, firstParse_cons_some hf]
    rfl

/-- **C4 counterexample.** The spec round-trip `clean(format(d, p)) = isoForm(d)`
fails for the supported pattern `p = %d-%m-%Y` at `d = 2023-05-04`:
`d.strftime('%d-%m-%Y') = '04-05-2023'`, and the earlier `%m-%d-%Y` entry of
the default list parses that string first, so `format_date` returns
`'2023-04-05'`, not `isoForm(d) = '2023-05-04'`. -/
theorem format_date_roundtrip_cex :
    dateOk ⟨2023, 5, 4⟩ = true ∧
    fmtDmYDash ∈ defaultFormats ∧
    format_date (some ⟨strftimeL fmtDmYDash ⟨2023, 5, 4⟩⟩) = "2023-04-05" ∧
    isoDate ⟨2023, 5, 4⟩ = "2023-05-04" := by
  refine ⟨by decide, by decide, ?_, rfl⟩
  rfl

/-- Witness for C4: the round-trip conjunct evaluated at the concrete date
2024-02-29 under the pattern `%m/%d/%Y`. -/
theorem format_date_contract_witness :
    dateOk ⟨2024, 2, 29⟩ = true ∧ 1000 ≤ (2024 : Nat) ∧
    format_date (some ⟨strftimeL fmtMdYSlash ⟨2024, 2, 29⟩⟩) = isoDate ⟨2024, 2, 29⟩ :=
  ⟨by decide, by decide,
    format_date_contract.1 ⟨2024, 2, 29⟩ (by decide) (by decide) fmtMdYSlash (by decide)⟩

end DataCleaning
